import Mathlib

/-!
# Verification of the solar-om-analytics analytics core

Shallow embedding of the analytics engine of `solar-om-analytics`
(`src/logic/analytics/*` and the data models of `src/logic/data_models/*`),
together with theorems settling the frozen claims about it.

Modelling conventions:
* Python floats are modelled as exact rationals (`ℚ`); the only place a
  genuinely irrational value arises is `numpy.std` (a square root), which is
  modelled as `Real.sqrt` of the rational variance.
* Calendar dates (`"YYYY-MM-DD"` strings parsed with `datetime.strptime`) are
  modelled as `ℤ` epoch-day numbers.  All operations the source performs on
  dates (comparison, sorting, adding one day, differences in days) commute
  with this representation; month-of-year and weekday are recovered with the
  standard civil-calendar conversion below.
* Python `dict`s are modelled as association lists, with the match
  semantics (first or last occurrence wins) chosen to mirror each use site.
* Fallible code (`raise`) is modelled with `Except String`.
* Wall-clock timestamps and random id suffixes are not modelled (they carry
  no semantic content for any claim); ids keep their deterministic parts.
-/

/-- Truncation toward zero, the semantics of Python's `int(float)`. -/
def pyTrunc (q : ℚ) : ℤ :=
  if 0 ≤ q then ⌊q⌋ else ⌈q⌉

/-- Arithmetic mean of a list of rationals (`numpy.mean`); 0 on the empty
list (the source never takes a mean of an empty list on any path a claim
touches, and `numpy` would return `nan` there). -/
def meanQ (l : List ℚ) : ℚ := l.sum / l.length

/-- Population variance of a list of rationals (the square of `numpy.std`,
which uses `ddof=0`). -/
def varQ (l : List ℚ) : ℚ :=
  ((l.map (fun v => (v - meanQ l) ^ 2)).sum) / l.length

/-- Insert `x` into `l` sorted by `key`, after all elements with a key `≤ key x`.
Together with `sortBy` below this is a stable insertion sort, matching the
stability guarantee of Python's `sorted` / `numpy.sort`. -/
def insertBy {α β : Type} [LinearOrder β] (key : α → β) (x : α) :
    List α → List α
  | [] => [x]
  | y :: l => if key x < key y then x :: y :: l else y :: insertBy key x l

/-- Stable sort by a key, modelling Python's `sorted(l, key=...)`. -/
def sortBy {α β : Type} [LinearOrder β] (key : α → β) (l : List α) : List α :=
  l.foldl (fun acc x => insertBy key x acc) []

theorem insertBy_perm {α β : Type} [LinearOrder β] (key : α → β) (x : α) :
    ∀ l : List α, List.Perm (insertBy key x l) (x :: l) := by
  intro l
  induction l with
  | nil => rfl
  | cons y l ih =>
    by_cases h : key x < key y
    · simp [insertBy, h]
    · rw [insertBy, if_neg h]
      exact (ih.cons y).trans (List.Perm.swap x y l)

theorem insertBy_sorted {α β : Type} [LinearOrder β] (key : α → β) (x : α)
    (l : List α) (hl : l.Sorted (fun a b => key a ≤ key b)) :
    (insertBy key x l).Sorted (fun a b => key a ≤ key b) := by
  induction l with
  | nil => simp [insertBy]
  | cons y l ih =>
    rcases List.sorted_cons.mp hl with ⟨hy, hl'⟩
    by_cases h : key x < key y
    · rw [insertBy, if_pos h]
      refine List.sorted_cons.mpr ⟨?_, hl⟩
      intro b hb
      rcases List.mem_cons.mp hb with rfl | hb
      · exact le_of_lt h
      · exact le_trans (le_of_lt h) (hy b hb)
    · rw [insertBy, if_neg h]
      refine List.sorted_cons.mpr ⟨?_, ih hl'⟩
      intro b hb
      rcases List.mem_cons.mp ((insertBy_perm key x l).mem_iff.mp hb) with
        rfl | hb'
      · exact le_of_not_lt h
      · exact hy b hb'

theorem sortBy_perm {α β : Type} [LinearOrder β] (key : α → β)
    (l : List α) : List.Perm (sortBy key l) l := by
  suffices h : ∀ (l acc : List α),
      List.Perm (l.foldl (fun acc x => insertBy key x acc) acc) (acc ++ l) by
    simpa using h l []
  intro l
  induction l with
  | nil => simp
  | cons x l ih =>
    intro acc
    have h1 : (x :: l).foldl (fun acc x => insertBy key x acc) acc
        = l.foldl (fun acc x => insertBy key x acc) (insertBy key x acc) := rfl
    rw [h1]
    refine ((ih _).trans ?_)
    exact ((insertBy_perm key x acc).append_right l).trans List.perm_middle.symm

theorem sortBy_sorted {α β : Type} [LinearOrder β] (key : α → β)
    (l : List α) : (sortBy key l).Sorted (fun a b => key a ≤ key b) := by
  suffices h : ∀ (l acc : List α),
      acc.Sorted (fun a b => key a ≤ key b) →
      (l.foldl (fun acc x => insertBy key x acc) acc).Sorted
        (fun a b => key a ≤ key b) by
    exact h l [] (by simp)
  intro l
  induction l with
  | nil => intro acc hacc; simpa using hacc
  | cons x l ih =>
    intro acc hacc
    exact ih _ (insertBy_sorted key x acc hacc)

theorem sortBy_length {α β : Type} [LinearOrder β] (key : α → β)
    (l : List α) : (sortBy key l).length = l.length :=
  (sortBy_perm key l).length_eq

/-- Sort a list of rationals ascending (`numpy.sort`). -/
def sortQ (l : List ℚ) : List ℚ := sortBy id l

/-- Linear interpolation of a (sorted) value list at rank position `pos`:
the value between indices `⌊pos⌋` and `⌊pos⌋ + 1`, weighted by the
fractional part of `pos`.  Out-of-range upper index falls back to the lower
value (which matches `numpy`, where the upper index is only out of range when
the fractional part is 0). -/
def interpAt (s : List ℚ) (pos : ℚ) : ℚ :=
  let i : ℕ := ⌊pos⌋.toNat
  let lo := s.getD i 0
  let hi := s.getD (i + 1) lo
  lo + (pos - (i : ℚ)) * (hi - lo)

/--
`numpy.percentile(values, p)` with the default linear-interpolation method:
sort the values; with `n` values the rank position is `pos = p/100·(n−1)`;
the result interpolates linearly between the sorted values at `⌊pos⌋` and
`⌊pos⌋ + 1`.  Returns 0 on the empty list (where `numpy` errors; never
reached by the source on a claim-relevant path). -/
def percentileQ (l : List ℚ) (p : ℚ) : ℚ :=
  let s := sortQ l
  if s.length = 0 then 0
  else interpAt s (p / 100 * ((s.length : ℚ) - 1))

/-- `numpy.min` of a nonempty rational list: head of the sorted list. -/
def minQ (l : List ℚ) : ℚ := (sortQ l).headD 0

/-- `numpy.max` of a nonempty rational list: last of the sorted list. -/
def maxQ (l : List ℚ) : ℚ := (sortQ l).getLastD 0

/--
`DailyReading` (src/logic/data_models/reading.py): immutable value object of
one plant-day of telemetry.  Numeric fields are rationals, the date is an
epoch-day integer.  The pydantic range constraints (`power_output_kwh ≥ 0`
etc.) are enforced at the ingestion boundary and are deliberately not baked
into the type: all theorems below quantify over arbitrary field values, which
only makes them stronger.
-/
structure DailyReading where
  plant_id : String
  date : ℤ
  power_output_kwh : ℚ
  efficiency_pct : ℚ
  temperature_c : ℚ
  irradiance_w_m2 : ℚ
  inverter_status : String
  grid_frequency_hz : ℚ
deriving DecidableEq, Repr

namespace DataValidator

/-- The deduplication key of `DataValidator.remove_duplicates`:
`(reading.plant_id, reading.date)`. -/
def dupKey (r : DailyReading) : String × ℤ := (r.plant_id, r.date)

/-- Loop of `DataValidator.remove_duplicates`: walk the readings keeping a
`seen` set of `(plant_id, date)` keys, keeping the first occurrence of each
key and dropping the rest. -/
def removeDuplicatesAux (seen : List (String × ℤ)) :
    List DailyReading → List DailyReading
  | [] => []
  | r :: rest =>
    if dupKey r ∈ seen then
      removeDuplicatesAux seen rest
    else
      r :: removeDuplicatesAux (dupKey r :: seen) rest

/-- `DataValidator.remove_duplicates` (data_validator.py, lines 171-193). -/
def removeDuplicates (readings : List DailyReading) : List DailyReading :=
  removeDuplicatesAux [] readings

/-- `DataValidator.OUTLIER_ZSCORE_THRESHOLD` (data_validator.py, line 32). -/
def OUTLIER_ZSCORE_THRESHOLD : ℚ := 3

/-- The metric values array used by `detect_outliers`:
`np.array([r.power_output_kwh for r in readings])`. -/
def powerValues (readings : List DailyReading) : List ℚ :=
  readings.map (·.power_output_kwh)

/-- The per-value test of `_detect_outliers_zscore`:
`|v - mean| / std_dev > threshold` with `std_dev = √variance`, stated without
the square root.  For `variance > 0` both sides of the source comparison are
obtained by squaring (both sides are nonnegative once `threshold ≥ 0`, and a
negative threshold is always exceeded); `zscoreExceeds_iff` below proves this
`Bool` equals the source's real-valued comparison. -/
def zscoreExceeds (threshold mean variance v : ℚ) : Bool :=
  decide (threshold < 0) || decide (threshold ^ 2 * variance < (v - mean) ^ 2)

/-- `DataValidator._detect_outliers_zscore` (data_validator.py, lines
131-150).  The source selects `readings[i]` for the indices `i` with
`z_scores[i] > threshold`; since `values[i] = readings[i].power_output_kwh`,
that index-based selection is exactly a filter over the readings. -/
def detectOutliersZscore (readings : List DailyReading) (threshold : ℚ) :
    List DailyReading :=
  let values := powerValues readings
  let mean := meanQ values
  let variance := varQ values
  if variance = 0 then []
  else readings.filter
    (fun r => zscoreExceeds threshold mean variance r.power_output_kwh)

/-- `DataValidator._detect_outliers_iqr` (data_validator.py, lines 152-169). -/
def detectOutliersIqr (readings : List DailyReading) : List DailyReading :=
  let values := powerValues readings
  let q1 := percentileQ values 25
  let q3 := percentileQ values 75
  let iqr := q3 - q1
  let lowerBound := q1 - 3/2 * iqr
  let upperBound := q3 + 3/2 * iqr
  readings.filter (fun r =>
    decide (r.power_output_kwh < lowerBound) ||
    decide (upperBound < r.power_output_kwh))

/-- `DataValidator.detect_outliers` (data_validator.py, lines 100-129). -/
def detectOutliers (readings : List DailyReading) (method : String)
    (threshold : ℚ) : List DailyReading :=
  if readings.length < 3 then []
  else if method = "zscore" then detectOutliersZscore readings threshold
  else if method = "iqr" then detectOutliersIqr readings
  else []

/-- `DataValidator.VALID_INVERTER_STATUSES` (data_validator.py, line 30). -/
def validInverterStatuses : List String :=
  ["active", "inactive", "fault", "standby", "maintenance"]

/-- `DataValidator.validate` (data_validator.py, lines 38-98), returning the
list of violated business rules; the source raises a `ValidationError`
joining this list whenever it is nonempty.  `today` is the value of
`datetime.now()` at the call.  The unparsable-date rule cannot fire in the
epoch-day date model (every `ℤ` is a parseable date); the remaining rules
are translated verbatim. -/
def validationErrors (today : ℤ) (r : DailyReading) : List String :=
  (if r.plant_id.trim = "" then ["plant_id cannot be empty"] else []) ++
  (if today < r.date then ["date cannot be in the future"] else []) ++
  (if r.power_output_kwh < 0 then ["power_output_kwh cannot be negative"]
   else []) ++
  (if r.efficiency_pct < 0 ∨ 100 < r.efficiency_pct then
    ["efficiency_pct must be 0-100"] else []) ++
  (if r.temperature_c < -50 ∨ 80 < r.temperature_c then
    ["temperature_c out of realistic range"] else []) ++
  (if r.irradiance_w_m2 < 0 ∨ 1500 < r.irradiance_w_m2 then
    ["irradiance_w_m2 out of range (0-1500)"] else []) ++
  (if r.inverter_status.toLower ∉ validInverterStatuses then
    ["inverter_status invalid"] else []) ++
  (if r.grid_frequency_hz < 49.5 ∨ 50.5 < r.grid_frequency_hz then
    ["grid_frequency_hz out of range (49.5-50.5 Hz)"] else [])

/-- `validate` succeeds exactly when no business rule is violated. -/
def isValidReading (today : ℤ) (r : DailyReading) : Bool :=
  (validationErrors today r).isEmpty

/-- The `readings_by_date` dict of `fill_date_gaps`:
`{r.date: r for r in sorted_readings}`.  For duplicate dates the later
element of the sorted list wins (dict insertion overwrites), hence the
lookup takes the last matching element. -/
def lookupDate (s : List DailyReading) (d : ℤ) : Option DailyReading :=
  s.reverse.find? (fun r => r.date == d)

/-- `DataValidator._interpolate_reading` (data_validator.py, lines 262-306):
`before` is the last reading dated strictly before the target (the loop keeps
overwriting it), `after` the first dated strictly after (the loop breaks).
All four of power/efficiency/temperature/irradiance are linearly
interpolated; `inverter_status` and `grid_frequency_hz` are copied from
`before`. -/
def interpolateReading (s : List DailyReading) (target : ℤ) :
    Option DailyReading :=
  match (s.filter (fun r => decide (r.date < target))).getLast?,
      s.find? (fun r => decide (target < r.date)) with
  | some b, some a =>
    let totalDays : ℤ := a.date - b.date
    if 0 < totalDays then
      let frac : ℚ := ((target - b.date : ℤ) : ℚ) / (totalDays : ℚ)
      some { plant_id := b.plant_id
             date := target
             power_output_kwh := b.power_output_kwh +
               frac * (a.power_output_kwh - b.power_output_kwh)
             efficiency_pct := b.efficiency_pct +
               frac * (a.efficiency_pct - b.efficiency_pct)
             temperature_c := b.temperature_c +
               frac * (a.temperature_c - b.temperature_c)
             irradiance_w_m2 := b.irradiance_w_m2 +
               frac * (a.irradiance_w_m2 - b.irradiance_w_m2)
             inverter_status := b.inverter_status
             grid_frequency_hz := b.grid_frequency_hz }
    else none
  | _, _ => none

/-- One iteration of the `while current_date <= end_date` loop of
`fill_date_gaps`: extend the `filled` accumulator (kept in reverse order,
so its head is the source's `filled[-1]`) for one day. -/
def fillStep (s : List DailyReading) (method : String) (current : ℤ)
    (acc : List DailyReading) : List DailyReading :=
  match lookupDate s current with
  | some r => r :: acc
  | none =>
    if method = "interpolate" then
      match interpolateReading s current with
      | some r => r :: acc
      | none => acc
    else if method = "forward_fill" then
      match acc with
      | last :: _ => { last with date := current } :: acc
      | [] => acc
    else acc

/-- The `while current_date <= end_date` loop of `fill_date_gaps`, with `n`
the number of remaining days. -/
def fillWalk (s : List DailyReading) (method : String) :
    ℕ → ℤ → List DailyReading → List DailyReading
  | 0, _, acc => acc.reverse
  | n + 1, current, acc =>
    fillWalk s method n (current + 1) (fillStep s method current acc)

/-- One day of the `fill_date_gaps` walk with `method="interpolate"`:
the reading stored for that date if present, otherwise the interpolated
one (if any). -/
def stepInterp (s : List DailyReading) (d : ℤ) : Option DailyReading :=
  match lookupDate s d with
  | some r => some r
  | none => interpolateReading s d

/-- `DataValidator.fill_date_gaps` (data_validator.py, lines 195-260). -/
def fillDateGaps (readings : List DailyReading) (method : String) :
    List DailyReading :=
  if readings.length < 2 then readings
  else
    let s := sortBy (·.date) readings
    match s with
    | [] => readings
    | r0 :: rest =>
      let startDate := r0.date
      let endDate := ((r0 :: rest).getLast (by simp)).date
      fillWalk (r0 :: rest) method ((endDate - startDate).toNat + 1)
        startDate []

end DataValidator

/-- Convert an epoch-day number (days since 1970-01-01) to a civil
`(year, month, day)` triple — the standard era-based algorithm, used to
recover the `.month` / `.year` of a parsed `datetime`. -/
def civilFromDays (z0 : ℤ) : ℤ × ℤ × ℤ :=
  let z := z0 + 719468
  let era := Int.fdiv z 146097
  let doe := z - era * 146097
  let yoe := Int.fdiv (doe - Int.fdiv doe 1460 + Int.fdiv doe 36524 -
    Int.fdiv doe 146096) 365
  let y := yoe + era * 400
  let doy := doe - (365 * yoe + Int.fdiv yoe 4 - Int.fdiv yoe 100)
  let mp := Int.fdiv (5 * doy + 2) 153
  let d := doy - Int.fdiv (153 * mp + 2) 5 + 1
  let m := mp + (if mp < 10 then 3 else -9)
  (y + (if m ≤ 2 then 1 else 0), m, d)

/-- `date.month` of an epoch-day date. -/
def monthOf (z : ℤ) : ℤ := (civilFromDays z).2.1

/-- `date.year` of an epoch-day date. -/
def yearOf (z : ℤ) : ℤ := (civilFromDays z).1

/-- `date.weekday()` of an epoch-day date (0 = Monday; 1970-01-01 was a
Thursday, weekday 3). -/
def weekdayOf (z : ℤ) : ℤ := Int.emod (z + 3) 7

/-- Python `min(dates)` over a reading list's dates (0 if empty). -/
def minDate : List DailyReading → ℤ
  | [] => 0
  | r :: rest => rest.foldl (fun m x => min m x.date) r.date

/-- Python `max(dates)` over a reading list's dates (0 if empty). -/
def maxDate : List DailyReading → ℤ
  | [] => 0
  | r :: rest => rest.foldl (fun m x => max m x.date) r.date

/--
`Baseline` (src/logic/data_models/baseline.py).  `std_dev` is `numpy.std`,
an (in general irrational) square root, hence `ℝ`; every other numeric field
is rational.  `date_range` (a formatted "min to max" string in the source)
is kept as the pair of dates; `calculation_timestamp` (wall clock) is not
modelled.  The pydantic `ge` constraints on `std_dev`/`iqr`/`samples_count`
are guaranteed by `calculate` (see `calculate_spec`) and are not re-checked
at construction. -/
structure Baseline where
  plant_id : String
  period_name : String
  metric_name : String
  mean : ℚ
  std_dev : ℝ
  q1 : ℚ
  q2 : ℚ
  q3 : ℚ
  iqr : ℚ
  min_val : ℚ
  max_val : ℚ
  samples_count : ℕ
  date_range : ℤ × ℤ

namespace BaselineCalculator

/-- `BASELINE_MIN_SAMPLES` (utils/constants.py, line 8). -/
def BASELINE_MIN_SAMPLES : ℕ := 13

/-- The `valid_metrics` set of `_extract_metric_values` (and the metric names
handled by the if/elif dispatch). -/
def validMetrics : List String :=
  ["power_output_kwh", "efficiency_pct", "temperature_c", "irradiance_w_m2",
   "grid_frequency_hz"]

/-- Field accessor corresponding to the if/elif metric dispatch (for a metric
in `validMetrics`; the final branch is `grid_frequency_hz`). -/
def metricAccessor (metric : String) (r : DailyReading) : ℚ :=
  if metric = "power_output_kwh" then r.power_output_kwh
  else if metric = "efficiency_pct" then r.efficiency_pct
  else if metric = "temperature_c" then r.temperature_c
  else if metric = "irradiance_w_m2" then r.irradiance_w_m2
  else r.grid_frequency_hz

/-- `BaselineCalculator._extract_metric_values` (baseline_calculator.py,
lines 134-176).  Raises on an unknown metric; for a valid metric each
reading contributes exactly one value (the `AttributeError` handler cannot
fire on the value-object model). -/
def extractMetricValues (readings : List DailyReading) (metric : String) :
    Except String (List ℚ) :=
  if metric ∈ validMetrics then .ok (readings.map (metricAccessor metric))
  else .error ("Invalid metric: " ++ metric)

/-- `BaselineCalculator._infer_period_name` (baseline_calculator.py, lines
178-196): quarter of the earliest reading date. -/
def inferPeriodName (readings : List DailyReading) : String :=
  match readings with
  | [] => "UNKNOWN"
  | _ =>
    let minD := minDate readings
    let quarter :=
      if monthOf minD ≤ 3 then "Q1"
      else if monthOf minD ≤ 6 then "Q2"
      else if monthOf minD ≤ 9 then "Q3"
      else "Q4"
    quarter ++ "_" ++ toString (yearOf minD)

/-- `BaselineCalculator.calculate` (baseline_calculator.py, lines 17-85). -/
noncomputable def calculate (readings : List DailyReading)
    (plant_id metric : String) (period_name : Option String) :
    Except String Baseline :=
  if readings.length < BASELINE_MIN_SAMPLES then
    .error ("Insufficient samples: " ++ toString readings.length ++ " < 13")
  else
    match extractMetricValues readings metric with
    | .error e => .error e
    | .ok values =>
      if values.length = 0 then
        .error ("No valid values found for metric: " ++ metric)
      else
        .ok { plant_id := plant_id
              period_name := period_name.getD (inferPeriodName readings)
              metric_name := metric
              mean := meanQ values
              std_dev := Real.sqrt (varQ values)
              q1 := percentileQ values 25
              q2 := percentileQ values 50
              q3 := percentileQ values 75
              iqr := percentileQ values 75 - percentileQ values 25
              min_val := minQ values
              max_val := maxQ values
              samples_count := values.length
              date_range := (minDate readings, maxDate readings) }

end BaselineCalculator

/--
`Anomaly` (src/logic/data_models/anomaly.py).  `z_score` is a real number
(a ratio with the irrational `std_dev` as divisor); the random
`uuid` suffix of `anomaly_id` and the wall-clock `detection_timestamp` are
not modelled. -/
structure Anomaly where
  anomaly_id : String
  plant_id : String
  date : ℤ
  metric_name : String
  actual_value : ℚ
  expected_value : ℚ
  deviation_pct : ℚ
  severity : String
  detected_by : String
  z_score : Option ℝ
  iqr_bounds : Option (ℚ × ℚ)
  status : String

namespace AnomalyDetector

/-- `ZSCORE_THRESHOLD` (utils/constants.py, line 4). -/
def ZSCORE_THRESHOLD : ℚ := 2

/-- `IQR_MULTIPLIER` (utils/constants.py, line 5). -/
def IQR_MULTIPLIER : ℚ := 3 / 2

/-- `AnomalyDetector.classify_severity` (anomaly_detector.py, lines 153-174)
with the `ANOMALY_SEVERITY_THRESHOLDS` values of utils/constants.py (lines
12-17): critical ≥ 50, high ≥ 20, medium ≥ 10, low ≥ 5, and the final
`else` branch also returns "low". -/
def classifySeverity (deviation_pct : ℚ) : String :=
  let absDeviation := |deviation_pct|
  if 50 ≤ absDeviation then "critical"
  else if 20 ≤ absDeviation then "high"
  else if 10 ≤ absDeviation then "medium"
  else if 5 ≤ absDeviation then "low"
  else "low"

/-- `AnomalyDetector._extract_metric_from_readings` (anomaly_detector.py,
lines 237-256): the if/elif chain appends one value per reading for a known
metric and nothing at all for an unknown one (no `else` branch, no error). -/
def extractMetricFromReadings (readings : List DailyReading)
    (metric : String) : List ℚ :=
  readings.filterMap (fun r =>
    if metric = "power_output_kwh" then some r.power_output_kwh
    else if metric = "efficiency_pct" then some r.efficiency_pct
    else if metric = "temperature_c" then some r.temperature_c
    else if metric = "irradiance_w_m2" then some r.irradiance_w_m2
    else if metric = "grid_frequency_hz" then some r.grid_frequency_hz
    else none)

/-- `AnomalyDetector._create_anomaly` (anomaly_detector.py, lines 208-235). -/
noncomputable def createAnomaly (r : DailyReading) (value : ℚ) (b : Baseline)
    (detection_method : String) (z : Option ℝ) (bounds : Option (ℚ × ℚ)) :
    Anomaly :=
  let deviation : ℚ :=
    if b.mean ≠ 0 then (value - b.mean) / b.mean * 100 else 0
  { anomaly_id := "ANOM_" ++ r.plant_id ++ "_" ++ toString r.date
    plant_id := r.plant_id
    date := r.date
    metric_name := b.metric_name
    actual_value := value
    expected_value := b.mean
    deviation_pct := deviation
    severity := classifySeverity deviation
    detected_by := detection_method
    z_score := z
    iqr_bounds := bounds
    status := "open" }

/-- `AnomalyDetector._detect_zscore` (anomaly_detector.py, lines 176-188):
`none` when `std_dev == 0`, otherwise an anomaly exactly when
`|z| > zscore_threshold`. -/
noncomputable def detectZscoreSingle (zthr : ℚ) (r : DailyReading)
    (value : ℚ) (b : Baseline) : Option Anomaly :=
  if b.std_dev = 0 then none
  else
    let z : ℝ := ((value - b.mean : ℚ) : ℝ) / b.std_dev
    if (zthr : ℝ) < |z| then
      some (createAnomaly r value b "zscore" (some z) none)
    else none

/-- `AnomalyDetector._detect_iqr` (anomaly_detector.py, lines 190-206). -/
noncomputable def detectIqrSingle (mult : ℚ) (r : DailyReading) (value : ℚ)
    (b : Baseline) : Option Anomaly :=
  let lowerBound := b.q1 - mult * b.iqr
  let upperBound := b.q3 + mult * b.iqr
  if value < lowerBound ∨ upperBound < value then
    some (createAnomaly r value b "iqr" none (some (lowerBound, upperBound)))
  else none

/-- `AnomalyDetector.detect` (anomaly_detector.py, lines 32-72), for a
detector constructed with thresholds `zthr` / `mult`.  The source's indexed
loop skips index `i` when `i >= len(values)`; since
`_extract_metric_from_readings` returns either one value per reading or an
empty list, that loop visits exactly the element-wise pairs of
`readings.zip values`.  Per reading the z-score test runs first and the IQR
test only when it produced nothing. -/
noncomputable def detect (zthr mult : ℚ) (readings : List DailyReading)
    (b : Baseline) : List Anomaly :=
  (readings.zip (extractMetricFromReadings readings b.metric_name)).filterMap
    (fun rv =>
      match detectZscoreSingle zthr rv.1 rv.2 b with
      | some a => some a
      | none => detectIqrSingle mult rv.1 rv.2 b)

/-- `AnomalyDetector().detect(...)` with the default constructor
thresholds. -/
noncomputable def detectDefault (readings : List DailyReading) (b : Baseline) :
    List Anomaly :=
  detect ZSCORE_THRESHOLD IQR_MULTIPLIER readings b

end AnomalyDetector

/--
`Pattern` (src/logic/data_models/pattern.py).  `confidence_pct` is real
(the seasonal detector feeds it `70 + 2·numpy.std(...)`, a square root);
every other numeric field the detectors produce is rational.
`pattern_id` keeps only its deterministic prefix (the source appends a
wall-clock timestamp and a per-instance counter); `description` strings are
kept as fixed labels (the source interpolates formatted floats into them,
which carries no claim-relevant content). -/
structure Pattern where
  pattern_id : String
  plant_id : String
  pattern_type : String
  metric_name : String
  description : String
  frequency : String
  amplitude : Option ℚ
  significance_score : ℚ
  confidence_pct : ℝ
  first_observed_date : ℤ
  last_observed_date : ℤ
  occurrence_count : ℤ
  affected_plants : List String
  is_fleet_wide : Bool

/-- Validated construction of a `Pattern`: pydantic checks
`significance_score ∈ [0,100]`, `confidence_pct ∈ [0,100]` and
`occurrence_count ≥ 2` (`Field(..., ge=2)`) at construction and raises a
`ValidationError` otherwise; the date-format validators always pass in the
epoch-day model. -/
noncomputable def mkPattern (pattern_id plant_id pattern_type metric_name
    description frequency : String) (amplitude : Option ℚ)
    (significance_score : ℚ) (confidence_pct : ℝ)
    (first_observed_date last_observed_date : ℤ) (occurrence_count : ℤ)
    (affected_plants : List String) (is_fleet_wide : Bool) :
    Except String Pattern :=
  if 0 ≤ significance_score ∧ significance_score ≤ 100 ∧
      0 ≤ confidence_pct ∧ confidence_pct ≤ 100 ∧ 2 ≤ occurrence_count then
    .ok { pattern_id := pattern_id, plant_id := plant_id
          pattern_type := pattern_type, metric_name := metric_name
          description := description, frequency := frequency
          amplitude := amplitude, significance_score := significance_score
          confidence_pct := confidence_pct
          first_observed_date := first_observed_date
          last_observed_date := last_observed_date
          occurrence_count := occurrence_count
          affected_plants := affected_plants, is_fleet_wide := is_fleet_wide }
  else .error "Pattern validation failed"

namespace PatternDetector

/-- The `power_output_kwh` values of the readings whose `monthOf` is `m`
(the per-month buckets of `detect_seasonal`'s `monthly_values`). -/
def monthValues (readings : List DailyReading) (m : ℤ) : List ℚ :=
  (readings.filter (fun r => monthOf r.date == m)).map (·.power_output_kwh)

/-- `PatternDetector.detect_seasonal` (pattern_detector.py, lines 75-167).
The source's `monthly_means` dict is iterated in first-appearance order;
only order-insensitive aggregates of it are used (means, deviations, and the
max/min monthly mean), so the fixed month order 1..12 used here yields the
same pattern.  Note the `value = reading.power_output_kwh` line: the metric
argument only labels the pattern; the values are always power output. -/
noncomputable def detectSeasonal (plant_id : String)
    (readings : List DailyReading) (metric_name : String) :
    Except String (List Pattern) :=
  if readings.length < 365 then .ok []
  else
    match readings with
    | [] => .ok []
    | r0 :: rest =>
      let months := ((List.range 12).map (fun k => (k : ℤ) + 1)).filter
        (fun m => !(monthValues (r0 :: rest) m).isEmpty)
      if months.length < 12 then .ok []
      else
        let monthlyMeans := months.map
          (fun m => meanQ (monthValues (r0 :: rest) m))
        let overallMean := meanQ monthlyMeans
        let monthlyDeviations := monthlyMeans.map
          (fun mm => |mm - overallMean| / overallMean * 100)
        let avgDeviation := meanQ monthlyDeviations
        let stdDeviation : ℝ := Real.sqrt (varQ monthlyDeviations)
        if 15 < avgDeviation then
          let lastR := (r0 :: rest).getLast (by simp)
          let years : ℚ := ((lastR.date - r0.date : ℤ) : ℚ) / (1461 / 4)
          let occurrenceCount : ℤ := max (pyTrunc years) 2
          (mkPattern "PAT_SEASONAL" plant_id "seasonal" metric_name
            "Seasonal variation" "annual"
            (some (maxQ monthlyMeans - minQ monthlyMeans))
            (min 100 (avgDeviation * 2))
            (min (100 : ℝ) (70 + stdDeviation * 2))
            r0.date lastR.date occurrenceCount [plant_id] false).map
            (fun p => [p])
        else .ok []

/-- The per-weekday buckets of `detect_weekly_cycle`'s `weekday_values`. -/
def weekdayValues (readings : List DailyReading) (w : ℤ) : List ℚ :=
  (readings.filter (fun r => weekdayOf r.date == w)).map (·.power_output_kwh)

/-- `PatternDetector.detect_weekly_cycle` (pattern_detector.py, lines
169-258).  The `if not weekday_means` guard of the source is unreachable
once all 7 weekdays are represented. -/
noncomputable def detectWeeklyCycle (plant_id : String)
    (readings : List DailyReading) (metric_name : String) :
    Except String (List Pattern) :=
  if readings.length < 60 then .ok []
  else
    match readings with
    | [] => .ok []
    | r0 :: rest =>
      let weekdays := ((List.range 7).map (fun k => (k : ℤ))).filter
        (fun w => !(weekdayValues (r0 :: rest) w).isEmpty)
      if weekdays.length < 7 then .ok []
      else
        let weekdayMeans := weekdays.map
          (fun w => meanQ (weekdayValues (r0 :: rest) w))
        let overallMean := meanQ weekdayMeans
        let weekdayDeviations := weekdayMeans.map
          (fun mm => |mm - overallMean| / overallMean * 100)
        let avgDeviation := meanQ weekdayDeviations
        if 10 < avgDeviation then
          let lastR := (r0 :: rest).getLast (by simp)
          let weeks : ℚ := ((lastR.date - r0.date : ℤ) : ℚ) / 7
          let occurrenceCount : ℤ := max (pyTrunc (weeks / 4)) 4
          (mkPattern "PAT_WEEKLY" plant_id "weekly_cycle" metric_name
            "Weekly cycle" "weekly"
            (some (maxQ weekdayMeans - minQ weekdayMeans))
            (min 100 (avgDeviation * 3))
            (min (100 : ℝ) (60 + (avgDeviation : ℝ) * 2))
            r0.date lastR.date occurrenceCount [plant_id] false).map
            (fun p => [p])
        else .ok []

/-- The degree-1 least-squares slope `np.polyfit(x, y, 1)[0]` for
`x = 0, 1, ..., n-1`: `(n·Σxy − Σx·Σy) / (n·Σx² − (Σx)²)`. -/
def lsSlope (ys : List ℚ) : ℚ :=
  let n : ℚ := ys.length
  let xs : List ℚ := (List.range ys.length).map (fun k => (k : ℚ))
  let sx := xs.sum
  let sy := ys.sum
  let sxy := ((xs.zip ys).map (fun p => p.1 * p.2)).sum
  let sxx := (xs.map (fun x => x ^ 2)).sum
  (n * sxy - sx * sy) / (n * sxx - sx ^ 2)

/-- `PatternDetector.detect_degradation` (pattern_detector.py, lines
260-346).  In the rational model every date parses and no value is NaN, so
the `try`-filtered `values`/`dates` lists keep one entry per reading and the
NaN mask keeps everything; the three `< 365` guards therefore coincide.
Note `occurrence_count = int(years)` here has no lower bound — the pydantic
`ge=2` check inside `mkPattern` is what rejects spans under 2 years. -/
noncomputable def detectDegradation (plant_id : String)
    (readings : List DailyReading) (metric_name : String) :
    Except String (List Pattern) :=
  if readings.length < 365 then .ok []
  else
    match readings with
    | [] => .ok []
    | r0 :: rest =>
      let values := (r0 :: rest).map (·.power_output_kwh)
      let slope := lsSlope values
      let annualSlope := slope * 365
      if annualSlope < 0 then
        let meanValue := meanQ values
        let degradationRate := |annualSlope| / meanValue * 100
        if 2 < degradationRate then
          let lastR := (r0 :: rest).getLast (by simp)
          let years : ℚ := ((lastR.date - r0.date : ℤ) : ℚ) / (1461 / 4)
          (mkPattern "PAT_DEGRADATION" plant_id "degradation" metric_name
            "Performance degradation" "annual" none
            (min 100 (degradationRate * 10))
            (min (100 : ℝ) (70 + (degradationRate : ℝ) * 2))
            r0.date lastR.date (pyTrunc years) [plant_id] false).map
            (fun p => [p])
        else .ok []
      else .ok []

/-- `PatternDetector.detect` (pattern_detector.py, lines 27-73): below 30
readings nothing is detected; otherwise the three sub-detectors run, each
wrapped in `try/except` so a failing one contributes nothing. -/
noncomputable def detect (plant_id : String) (readings : List DailyReading)
    (metric_name : String) : List Pattern :=
  if readings.isEmpty then []
  else if readings.length < 30 then []
  else
    (match detectSeasonal plant_id readings metric_name with
      | .ok l => l
      | .error _ => []) ++
    (match detectWeeklyCycle plant_id readings metric_name with
      | .ok l => l
      | .error _ => []) ++
    (match detectDegradation plant_id readings metric_name with
      | .ok l => l
      | .error _ => [])

end PatternDetector

/--
`Insight` (src/logic/data_models/insight.py).  `confidence` is real (it can
derive from a real z-score or pattern confidence).  `generation_date` (wall
clock) is not modelled; the free-text fields are kept as fixed labels plus
their claim-relevant dynamic parts. -/
structure Insight where
  insight_id : String
  plant_id : String
  insight_type : String
  title : String
  description : String
  reasoning : String
  business_impact : String
  confidence : ℝ
  urgency : String
  linked_anomalies : List String
  linked_patterns : List String

namespace InsightsEngine

/-- `InsightsEngine._calculate_confidence_from_anomaly` (insights_engine.py,
lines 274-284). -/
noncomputable def calculateConfidenceFromAnomaly (a : Anomaly) : ℝ :=
  match a.z_score with
  | some z => min 100 (|z| * 15)
  | none => min (100 : ℝ) |((a.deviation_pct : ℚ) : ℝ)|

/-- `InsightsEngine._map_severity_to_urgency` (insights_engine.py, lines
286-294): dictionary lookup with default "medium". -/
def mapSeverityToUrgency (severity : String) : String :=
  if severity.toLower = "low" then "low"
  else if severity.toLower = "medium" then "medium"
  else if severity.toLower = "high" then "high"
  else if severity.toLower = "critical" then "critical"
  else "medium"

/-- `InsightsEngine._map_score_to_urgency` (insights_engine.py, lines
296-305). -/
noncomputable def mapScoreToUrgency (score : ℝ) : String :=
  if 85 ≤ score then "critical"
  else if 65 ≤ score then "high"
  else if 45 ≤ score then "medium"
  else "low"

/-- `InsightsEngine._generate_anomaly_insights` (insights_engine.py, lines
124-163). -/
noncomputable def generateAnomalyInsights (anomalies : List Anomaly) :
    List Insight :=
  anomalies.map (fun a =>
    { insight_id := "ins-" ++ a.anomaly_id
      plant_id := a.plant_id
      insight_type := "anomaly_cause_hypothesis"
      title := "Anomaly Detected: " ++ a.metric_name
      description := "Unexpected value"
      reasoning := "Detected by " ++ a.detected_by ++ " method"
      business_impact :=
        "Potential performance issue affecting " ++ a.metric_name
      confidence := calculateConfidenceFromAnomaly a
      urgency := mapSeverityToUrgency a.severity
      linked_anomalies := [a.anomaly_id]
      linked_patterns := [] })

/-- `InsightsEngine._generate_pattern_insights` (insights_engine.py, lines
165-219). -/
noncomputable def generatePatternInsights (patterns : List Pattern) :
    List Insight :=
  patterns.map (fun p =>
    { insight_id := "ins-" ++ p.pattern_id
      plant_id := p.plant_id
      insight_type :=
        if p.pattern_type = "degradation" then "performance_trend"
        else "pattern_explanation"
      title :=
        (if p.pattern_type = "degradation" then "Performance Degradation: "
         else if p.pattern_type = "seasonal" then "Seasonal Pattern: "
         else "Operational Pattern: ") ++ p.metric_name
      description := p.description
      reasoning := "Pattern detected"
      business_impact :=
        if p.pattern_type = "degradation" then "Maintenance may be required"
        else "Expected " ++ p.pattern_type
      confidence := p.confidence_pct
      urgency := mapScoreToUrgency ((p.significance_score : ℚ) : ℝ)
      linked_anomalies := []
      linked_patterns := [p.pattern_id] })

/-- `InsightsEngine._generate_combined_insights` (insights_engine.py, lines
221-272): one combined insight per **anomaly** that has at least one pattern
with the same `metric_name` (`continue` when none), linking all matching
patterns; combined confidence is the average of the anomaly confidence and
the mean matching-pattern confidence; the urgency is derived from the
(unclamped) combined confidence. -/
noncomputable def generateCombinedInsights (anomalies : List Anomaly)
    (patterns : List Pattern) : List Insight :=
  anomalies.filterMap (fun a =>
    let relatedPatterns :=
      patterns.filter (fun p => p.metric_name == a.metric_name)
    if relatedPatterns.isEmpty then none
    else
      let anomalyConfidence := calculateConfidenceFromAnomaly a
      let combinedConfidence : ℝ :=
        (anomalyConfidence +
          (relatedPatterns.map (·.confidence_pct)).sum /
            (relatedPatterns.length : ℝ)) / 2
      some { insight_id := "ins-" ++ a.anomaly_id
             plant_id := a.plant_id
             insight_type := "performance_trend"
             title := "Anomaly in Context of Pattern: " ++ a.metric_name
             description := "Anomaly detected within a known pattern context"
             reasoning := "Correlation found"
             business_impact := "Anomaly correlates with known pattern"
             confidence := min 100 combinedConfidence
             urgency := mapScoreToUrgency combinedConfidence
             linked_anomalies := [a.anomaly_id]
             linked_patterns := relatedPatterns.map (·.pattern_id) })

/-- `InsightsEngine.generate_insights` (insights_engine.py, lines 104-122):
anomaly insights, then pattern insights, then combined insights.  (The
engine's `daily_readings` are never read during generation.) -/
noncomputable def generateInsights (anomalies : List Anomaly)
    (patterns : List Pattern) : List Insight :=
  generateAnomalyInsights anomalies ++ generatePatternInsights patterns ++
    generateCombinedInsights anomalies patterns

end InsightsEngine

namespace DataPipeline

/-- `PipelineResult` (data_pipeline.py, lines 19-29); the `Dict` fields are
association lists keyed by plant id (and, for baselines, metric name). -/
structure PipelineResult where
  success : Bool
  plants : List String
  readings_by_plant : List (String × List DailyReading)
  baselines_by_plant : List (String × List (String × Baseline))
  anomalies_by_plant : List (String × List Anomaly)
  errors : List String
  warnings : List String

/-- `dict.get(k)` on an association list (first match). -/
def getEntry {α : Type} (m : List (String × α)) (k : String) : Option α :=
  (m.find? (fun kv => kv.1 == k)).map (·.2)

/-- `dict[k] = v` on an association list: overwrite the existing entry or
append a new one. -/
def setEntry {α : Type} (m : List (String × α)) (k : String) (v : α) :
    List (String × α) :=
  if m.any (fun kv => kv.1 == k) then
    m.map (fun kv => if kv.1 == k then (k, v) else kv)
  else m ++ [(k, v)]

/-- `dict.update(other)` on the inner metric-keyed baseline map. -/
def mergeInner (cur updates : List (String × Baseline)) :
    List (String × Baseline) :=
  updates.foldl (fun c kv => setEntry c kv.1 kv.2) cur

/-- The warning `_analyze_metric` records when a metric is skipped:
`f"Plant {plant_id}/{metric}: insufficient readings ({len(readings)} < 13)"`. -/
def insuffMsg (plant_id metric : String) (n : ℕ) : String :=
  "Plant " ++ plant_id ++ "/" ++ metric ++ ": insufficient readings (" ++
    toString n ++ " < 13)"

/-- `DataPipeline._analyze_metric` (data_pipeline.py, lines 213-249),
returning the `(baselines, anomalies)` pair together with the warning and
error entries it records: under 13 readings a warning and nothing else;
otherwise the computed baseline and its anomalies, or (when `calculate`
raises) an error entry caught by the surrounding `except`. -/
noncomputable def analyzeMetric (plant_id : String)
    (readings : List DailyReading) (metric : String) :
    List (String × Baseline) × List Anomaly × List String × List String :=
  if readings.length < 13 then
    ([], [], [insuffMsg plant_id metric readings.length], [])
  else
    match BaselineCalculator.calculate readings plant_id metric none with
    | .ok baseline =>
      ([(metric, baseline)], AnomalyDetector.detectDefault readings baseline,
       [], [])
    | .error e =>
      ([], [], [],
       ["Error analyzing " ++ plant_id ++ "/" ++ metric ++ ": " ++ e])

/-- `DataPipeline._validate_readings` (data_pipeline.py, lines 194-211):
the surviving readings plus the `invalid readings filtered` warning when any
were dropped. -/
def validateReadings (today : ℤ) (plant_id : String)
    (readings : List DailyReading) : List DailyReading × List String :=
  let valid := readings.filter (DataValidator.isValidReading today)
  let invalidCount := readings.length - valid.length
  (valid,
   if 0 < invalidCount then
     ["Plant " ++ plant_id ++ ": " ++ toString invalidCount ++
       " invalid readings filtered"]
   else [])

/-- The reading list a plant's metrics are analyzed against: optionally
validate-and-filter, always deduplicate, optionally fill date gaps
(steps 2a-2c of `_process_plant`). -/
def analysisReadings (today : ℤ) (validate fillGaps : Bool)
    (plant_id : String) (readings : List DailyReading) :
    List DailyReading × List String :=
  let vres := if validate then validateReadings today plant_id readings
    else (readings, [])
  let readings2 := DataValidator.removeDuplicates vres.1
  let readings3 :=
    if fillGaps ∧ 1 < readings2.length then
      DataValidator.fillDateGaps readings2 "interpolate"
    else readings2
  (readings3, vres.2)

/-- The body of `_process_plant`'s per-metric loop (step 2d): fold one
metric's `_analyze_metric` results into the pipeline state. -/
noncomputable def metricStep (plant_id : String)
    (readings3 : List DailyReading) (acc : PipelineResult)
    (metric : String) : PipelineResult :=
  let res := analyzeMetric plant_id readings3 metric
  { acc with
    baselines_by_plant := setEntry acc.baselines_by_plant plant_id
      (mergeInner ((getEntry acc.baselines_by_plant plant_id).getD [])
        res.1)
    anomalies_by_plant := setEntry acc.anomalies_by_plant plant_id
      (((getEntry acc.anomalies_by_plant plant_id).getD []) ++ res.2.1)
    warnings := acc.warnings ++ res.2.2.1
    errors := acc.errors ++ res.2.2.2 }

/-- `DataPipeline._process_plant` (data_pipeline.py, lines 144-192). -/
noncomputable def processPlant (today : ℤ) (metrics : List String)
    (validate fillGaps : Bool) (st : PipelineResult) (plant_id : String) :
    PipelineResult :=
  let readings0 := (getEntry st.readings_by_plant plant_id).getD []
  if readings0.isEmpty then
    { st with warnings :=
        st.warnings ++ ["No readings found for plant " ++ plant_id] }
  else
    let vres := if validate then validateReadings today plant_id readings0
      else (readings0, [])
    if validate ∧ vres.1.isEmpty then
      { st with warnings := st.warnings ++ vres.2 ++
          ["No valid readings for plant " ++ plant_id] }
    else
      let readings3 := (analysisReadings today validate fillGaps plant_id
        readings0).1
      let st1 : PipelineResult := { st with
        warnings := st.warnings ++ vres.2
        readings_by_plant := setEntry st.readings_by_plant plant_id readings3
        baselines_by_plant := setEntry st.baselines_by_plant plant_id []
        anomalies_by_plant := setEntry st.anomalies_by_plant plant_id [] }
      metrics.foldl (metricStep plant_id readings3) st1

/-- `DataPipeline.execute` (data_pipeline.py, lines 56-120), modelled from
the point where plants and readings have been loaded: the CSV-loading steps
(file IO, with their `SourceUnavailable` error handling) are replaced by the
directly supplied `plants` and `readingsByPlant` arguments.  `metrics or
["power_output_kwh"]` defaults an empty metric list; each plant is processed
in turn and `success` is set exactly when no error was recorded. -/
noncomputable def executeModel (plants : List String)
    (readingsByPlant : List (String × List DailyReading))
    (metrics : List String) (validate fillGaps : Bool) (today : ℤ) :
    PipelineResult :=
  let effMetrics := if metrics.isEmpty then ["power_output_kwh"] else metrics
  let init : PipelineResult :=
    { success := false, plants := plants
      readings_by_plant := readingsByPlant
      baselines_by_plant := [], anomalies_by_plant := []
      errors := [], warnings := [] }
  if plants.isEmpty ∨ readingsByPlant.isEmpty then
    { init with errors := init.errors ++ ["No plants or readings loaded"] }
  else
    let final := plants.foldl
      (processPlant today effMetrics validate fillGaps) init
    { final with success := final.errors.isEmpty }

end DataPipeline

/-! Concrete fixtures used by witnesses and counterexamples. -/

/-- A nominal telemetry reading. -/
def sampleReading : DailyReading :=
  { plant_id := "PLANT_001", date := 20443, power_output_kwh := 450
    efficiency_pct := 20, temperature_c := 25, irradiance_w_m2 := 800
    inverter_status := "OK", grid_frequency_hz := 50 }

/-- The reading of spec §8's worked example: `power_output_kwh = 250`. -/
def reading250 : DailyReading :=
  { plant_id := "PLANT_001", date := 20444, power_output_kwh := 250
    efficiency_pct := 20, temperature_c := 25, irradiance_w_m2 := 800
    inverter_status := "OK", grid_frequency_hz := 50 }

/-- The baseline of spec §8's worked example:
mean 450, std 45, q1 420, q3 480. -/
noncomputable def baseline450 : Baseline :=
  { plant_id := "PLANT_001", period_name := "Q4_2025"
    metric_name := "power_output_kwh", mean := 450, std_dev := 45
    q1 := 420, q2 := 450, q3 := 480, iqr := 60
    min_val := 250, max_val := 550, samples_count := 90
    date_range := (20350, 20440) }

/-- Thirteen consecutive daily readings — the smallest sample a baseline
accepts. -/
def thirteenReadings : List DailyReading :=
  (List.range 13).map (fun k =>
    { plant_id := "PLANT_001", date := (k : ℤ) + 20100
      power_output_kwh := 400 + (k : ℚ) * 10
      efficiency_pct := 20, temperature_c := 25, irradiance_w_m2 := 800
      inverter_status := "OK", grid_frequency_hz := 50 })

/-- A baseline whose `metric_name` is not one of the five supported
metrics. -/
noncomputable def baselineHumidity : Baseline :=
  { plant_id := "PLANT_001", period_name := "Q4_2025"
    metric_name := "humidity_pct", mean := 40, std_dev := 5
    q1 := 35, q2 := 40, q3 := 45, iqr := 10
    min_val := 20, max_val := 60, samples_count := 90
    date_range := (20350, 20440) }

/-- The inclusive list of calendar days from `lo` to `hi`. -/
def dateRange (lo hi : ℤ) : List ℤ :=
  (List.range ((hi - lo).toNat + 1)).map (fun (k : ℕ) => lo + (k : ℤ))

/-- A reading at day 0 with grid frequency 49.5 Hz. -/
def gfReadingA : DailyReading :=
  { plant_id := "P1", date := 0, power_output_kwh := 100
    efficiency_pct := 20, temperature_c := 25, irradiance_w_m2 := 800
    inverter_status := "OK", grid_frequency_hz := 99 / 2 }

/-- A reading two days later with grid frequency 50.5 Hz. -/
def gfReadingB : DailyReading :=
  { plant_id := "P1", date := 2, power_output_kwh := 200
    efficiency_pct := 24, temperature_c := 27, irradiance_w_m2 := 900
    inverter_status := "OK", grid_frequency_hz := 101 / 2 }

/-- First of two readings 13 days apart (so gap filling creates 12 more). -/
def gapReadingA : DailyReading :=
  { plant_id := "P1", date := 20000, power_output_kwh := 100
    efficiency_pct := 20, temperature_c := 25, irradiance_w_m2 := 800
    inverter_status := "OK", grid_frequency_hz := 50 }

/-- Second of the two gapped readings. -/
def gapReadingB : DailyReading :=
  { plant_id := "P1", date := 20013, power_output_kwh := 200
    efficiency_pct := 22, temperature_c := 28, irradiance_w_m2 := 900
    inverter_status := "OK", grid_frequency_hz := 50 }

/-- A two-plant readings map: `P1` has 2 readings, `P2` has 13. -/
def rmapW : List (String × List DailyReading) :=
  [("P1", [gapReadingA, gapReadingB]), ("P2", thirteenReadings)]

/-- An anomaly fixture on `power_output_kwh` (no z-score, so its confidence
derives from the deviation). -/
def anomalyM : Anomaly :=
  { anomaly_id := "A1", plant_id := "P1", date := 0
    metric_name := "power_output_kwh", actual_value := 250
    expected_value := 450, deviation_pct := -44, severity := "high"
    detected_by := "iqr", z_score := none, iqr_bounds := some (330, 570)
    status := "open" }

/-- A seasonal pattern fixture on the same metric as `anomalyM`. -/
noncomputable def patternM1 : Pattern :=
  { pattern_id := "PT1", plant_id := "P1", pattern_type := "seasonal"
    metric_name := "power_output_kwh", description := "seasonal variation"
    frequency := "annual", amplitude := some 100, significance_score := 50
    confidence_pct := 80, first_observed_date := 0
    last_observed_date := 400, occurrence_count := 2
    affected_plants := ["P1"], is_fleet_wide := false }

/-- A weekly-cycle pattern fixture on the same metric as `anomalyM`. -/
noncomputable def patternM2 : Pattern :=
  { pattern_id := "PT2", plant_id := "P1", pattern_type := "weekly_cycle"
    metric_name := "power_output_kwh", description := "weekly cycle"
    frequency := "weekly", amplitude := some 40, significance_score := 40
    confidence_pct := 85, first_observed_date := 0
    last_observed_date := 400, occurrence_count := 8
    affected_plants := ["P1"], is_fleet_wide := false }

/-- The single combined insight `_generate_combined_insights` produces from
`anomalyM` with `patternM1`/`patternM2` (both match its metric). -/
noncomputable def combinedM : Insight :=
  let relatedPatterns := [patternM1, patternM2].filter
    (fun p => p.metric_name == anomalyM.metric_name)
  let anomalyConfidence := InsightsEngine.calculateConfidenceFromAnomaly
    anomalyM
  let combinedConfidence : ℝ :=
    (anomalyConfidence + (relatedPatterns.map (·.confidence_pct)).sum /
      (relatedPatterns.length : ℝ)) / 2
  { insight_id := "ins-" ++ anomalyM.anomaly_id
    plant_id := anomalyM.plant_id
    insight_type := "performance_trend"
    title := "Anomaly in Context of Pattern: " ++ anomalyM.metric_name
    description := "Anomaly detected within a known pattern context"
    reasoning := "Correlation found"
    business_impact := "Anomaly correlates with known pattern"
    confidence := min 100 combinedConfidence
    urgency := InsightsEngine.mapScoreToUrgency combinedConfidence
    linked_anomalies := [anomalyM.anomaly_id]
    linked_patterns := relatedPatterns.map (·.pattern_id) }

/-- The property every reading in the gap-filled output satisfies: it is an
original reading, or an interpolated one for a previously missing day —
bounded by the nearest readings before and after, with the four
power/efficiency/temperature/irradiance fields linearly interpolated and
`inverter_status` / `grid_frequency_hz` copied from the earlier bounding
reading. -/
def filledReadingProp (readings : List DailyReading)
    (r : DailyReading) : Prop :=
  r ∈ readings ∨
    (r.date ∉ readings.map (·.date) ∧
     ∃ b a, b ∈ readings ∧ a ∈ readings ∧ b.date < r.date ∧
      r.date < a.date ∧
      (∀ x ∈ readings, x.date < r.date → x.date ≤ b.date) ∧
      (∀ x ∈ readings, r.date < x.date → a.date ≤ x.date) ∧
      r.power_output_kwh = b.power_output_kwh +
        ((r.date - b.date : ℤ) : ℚ) / ((a.date - b.date : ℤ) : ℚ) *
        (a.power_output_kwh - b.power_output_kwh) ∧
      r.efficiency_pct = b.efficiency_pct +
        ((r.date - b.date : ℤ) : ℚ) / ((a.date - b.date : ℤ) : ℚ) *
        (a.efficiency_pct - b.efficiency_pct) ∧
      r.temperature_c = b.temperature_c +
        ((r.date - b.date : ℤ) : ℚ) / ((a.date - b.date : ℤ) : ℚ) *
        (a.temperature_c - b.temperature_c) ∧
      r.irradiance_w_m2 = b.irradiance_w_m2 +
        ((r.date - b.date : ℤ) : ℚ) / ((a.date - b.date : ℤ) : ℚ) *
        (a.irradiance_w_m2 - b.irradiance_w_m2) ∧
      r.inverter_status = b.inverter_status ∧
      r.grid_frequency_hz = b.grid_frequency_hz)

/-- The reading the code interpolates for day 1 between `gfReadingA` and
`gfReadingB`: the four numeric fields are linearly interpolated, while
`inverter_status` and `grid_frequency_hz` are copied from `gfReadingA`. -/
def gfInterp : DailyReading :=
  { plant_id := gfReadingA.plant_id
    date := 1
    power_output_kwh := gfReadingA.power_output_kwh +
      ((1 - gfReadingA.date : ℤ) : ℚ) /
        ((gfReadingB.date - gfReadingA.date : ℤ) : ℚ) *
      (gfReadingB.power_output_kwh - gfReadingA.power_output_kwh)
    efficiency_pct := gfReadingA.efficiency_pct +
      ((1 - gfReadingA.date : ℤ) : ℚ) /
        ((gfReadingB.date - gfReadingA.date : ℤ) : ℚ) *
      (gfReadingB.efficiency_pct - gfReadingA.efficiency_pct)
    temperature_c := gfReadingA.temperature_c +
      ((1 - gfReadingA.date : ℤ) : ℚ) /
        ((gfReadingB.date - gfReadingA.date : ℤ) : ℚ) *
      (gfReadingB.temperature_c - gfReadingA.temperature_c)
    irradiance_w_m2 := gfReadingA.irradiance_w_m2 +
      ((1 - gfReadingA.date : ℤ) : ℚ) /
        ((gfReadingB.date - gfReadingA.date : ℤ) : ℚ) *
      (gfReadingB.irradiance_w_m2 - gfReadingA.irradiance_w_m2)
    inverter_status := gfReadingA.inverter_status
    grid_frequency_hz := gfReadingA.grid_frequency_hz }

section RemoveDuplicatesLemmas

open DataValidator

theorem removeDuplicatesAux_sublist (seen : List (String × ℤ)) :
    ∀ xs : List DailyReading, (removeDuplicatesAux seen xs).Sublist xs := by
  intro xs
  induction xs generalizing seen with
  | nil => simp [removeDuplicatesAux]
  | cons x rest ih =>
    by_cases h : dupKey x ∈ seen
    · simp only [removeDuplicatesAux, if_pos h]
      exact (ih seen).cons x
    · simp only [removeDuplicatesAux, if_neg h]
      exact (ih (dupKey x :: seen)).cons₂ x

theorem removeDuplicatesAux_filter_eq (seen : List (String × ℤ))
    (xs : List DailyReading) (k : String × ℤ) :
    (removeDuplicatesAux seen xs).filter (fun r => dupKey r = k) =
      if k ∈ seen then [] else (xs.find? (fun r => dupKey r = k)).toList := by
  induction xs generalizing seen with
  | nil =>
    simp [removeDuplicatesAux]
  | cons x rest ih =>
    by_cases hx : dupKey x ∈ seen
    · simp only [removeDuplicatesAux, if_pos hx]
      rw [ih seen]
      by_cases hk : k ∈ seen
      · simp [hk]
      · have hxk : ¬ dupKey x = k := fun h => hk (h ▸ hx)
        simp [hk, List.find?_cons, hxk]
    · simp only [removeDuplicatesAux, if_neg hx]
      by_cases hxk : dupKey x = k
      · subst hxk
        rw [List.filter_cons_of_pos (by simp)]
        rw [ih (dupKey x :: seen)]
        simp [hx, List.find?_cons]
      · rw [List.filter_cons_of_neg (by simp [hxk])]
        rw [ih (dupKey x :: seen)]
        have hmemiff : (k ∈ dupKey x :: seen) ↔ k ∈ seen := by
          constructor
          · intro h
            rcases List.mem_cons.mp h with h | h
            · exact absurd h.symm hxk
            · exact h
          · exact List.mem_cons_of_mem _
        by_cases hk : k ∈ seen
        · simp [hk, hmemiff]
        · simp only [hmemiff, if_neg hk]
          simp [List.find?_cons, hxk]

theorem removeDuplicatesAux_mem_key (seen : List (String × ℤ))
    (xs : List DailyReading) :
    ∀ r ∈ removeDuplicatesAux seen xs, dupKey r ∉ seen := by
  induction xs generalizing seen with
  | nil => simp [removeDuplicatesAux]
  | cons x rest ih =>
    intro r hr
    by_cases hx : dupKey x ∈ seen
    · rw [removeDuplicatesAux, if_pos hx] at hr
      exact ih seen r hr
    · rw [removeDuplicatesAux, if_neg hx] at hr
      rcases List.mem_cons.mp hr with hr' | hr'
      · exact hr' ▸ hx
      · intro hmem
        exact ih (dupKey x :: seen) r hr' (List.mem_cons_of_mem _ hmem)

theorem removeDuplicatesAux_idem (seen : List (String × ℤ))
    (xs : List DailyReading)
    (hnd : ∀ r ∈ xs, dupKey r ∉ seen)
    (hpair : xs.Pairwise (fun a b => dupKey a ≠ dupKey b)) :
    removeDuplicatesAux seen xs = xs := by
  induction xs generalizing seen with
  | nil => rfl
  | cons x rest ih =>
    have hx : dupKey x ∉ seen := hnd x (List.mem_cons_self x rest)
    rw [removeDuplicatesAux, if_neg hx]
    congr 1
    apply ih
    · intro r hr
      simp only [List.mem_cons, not_or]
      constructor
      · intro h
        exact (List.pairwise_cons.mp hpair).1 r hr h.symm
      · exact hnd r (List.mem_cons_of_mem _ hr)
    · exact (List.pairwise_cons.mp hpair).2

theorem removeDuplicatesAux_pairwise (seen : List (String × ℤ))
    (xs : List DailyReading) :
    (removeDuplicatesAux seen xs).Pairwise
      (fun a b => dupKey a ≠ dupKey b) := by
  induction xs generalizing seen with
  | nil => simp [removeDuplicatesAux]
  | cons x rest ih =>
    by_cases hx : dupKey x ∈ seen
    · rw [removeDuplicatesAux, if_pos hx]
      exact ih seen
    · rw [removeDuplicatesAux, if_neg hx]
      refine List.pairwise_cons.mpr ⟨?_, ih (dupKey x :: seen)⟩
      intro r hr h
      exact removeDuplicatesAux_mem_key _ _ r hr
        (h ▸ List.mem_cons_self (dupKey x) seen)

/-- **C8** — `remove_duplicates` is idempotent, never lengthens its input,
preserves first-seen input order (its output is a sublist of its input), and
for every `(plant_id, date)` key retains exactly the first input occurrence
of that key. -/
theorem remove_duplicates_spec (xs : List DailyReading) :
    DataValidator.removeDuplicates (DataValidator.removeDuplicates xs) =
        DataValidator.removeDuplicates xs ∧
    (DataValidator.removeDuplicates xs).length ≤ xs.length ∧
    (DataValidator.removeDuplicates xs).Sublist xs ∧
    ∀ pid d, (DataValidator.removeDuplicates xs).filter
        (fun r => dupKey r = (pid, d)) =
      (xs.find? (fun r => dupKey r = (pid, d))).toList := by
  refine ⟨?_, ?_, removeDuplicatesAux_sublist [] xs, ?_⟩
  · exact removeDuplicatesAux_idem [] _ (by simp)
      (removeDuplicatesAux_pairwise [] xs)
  · exact (removeDuplicatesAux_sublist [] xs).length_le
  · intro pid d
    simpa using removeDuplicatesAux_filter_eq [] xs (pid, d)

end RemoveDuplicatesLemmas

section DetectOutliersLemmas

open DataValidator

theorem varQ_nonneg (l : List ℚ) : 0 ≤ varQ l := by
  unfold varQ
  apply div_nonneg
  · apply List.sum_nonneg
    intro x hx
    rcases List.mem_map.mp hx with ⟨v, _, rfl⟩
    positivity
  · positivity

theorem zscoreExceeds_iff (t mean variance v : ℚ) (hv : 0 < variance) :
    zscoreExceeds t mean variance v = true ↔
      (t : ℝ) < |((v - mean : ℚ) : ℝ)| / Real.sqrt (variance : ℚ) := by
  have hvR : (0 : ℝ) < (variance : ℚ) := by exact_mod_cast hv
  have hs : (0 : ℝ) < Real.sqrt (variance : ℚ) := Real.sqrt_pos.mpr hvR
  rw [lt_div_iff₀ hs]
  unfold zscoreExceeds
  rw [Bool.or_eq_true, decide_eq_true_eq, decide_eq_true_eq]
  by_cases ht : t < 0
  · constructor
    · intro _
      have h1 : (t : ℝ) * Real.sqrt (variance : ℚ) < 0 :=
        mul_neg_of_neg_of_pos (by exact_mod_cast ht) hs
      exact lt_of_lt_of_le h1 (abs_nonneg _)
    · intro _
      exact Or.inl ht
  · have htR : (0 : ℝ) ≤ ((t : ℚ) : ℝ) := by
      exact_mod_cast le_of_not_lt ht
    constructor
    · rintro (h | h)
      · exact absurd h ht
      · have hR : ((t : ℚ) : ℝ) ^ 2 * ((variance : ℚ) : ℝ) <
            ((v - mean : ℚ) : ℝ) ^ 2 := by exact_mod_cast h
        have h2 : (((t : ℚ) : ℝ) * Real.sqrt (variance : ℚ)) ^ 2 <
            |((v - mean : ℚ) : ℝ)| ^ 2 := by
          rw [mul_pow, Real.sq_sqrt hvR.le, sq_abs]
          exact hR
        exact lt_of_pow_lt_pow_left₀ 2 (abs_nonneg _) h2
    · intro h
      refine Or.inr ?_
      have h2 : (((t : ℚ) : ℝ) * Real.sqrt (variance : ℚ)) ^ 2 <
          |((v - mean : ℚ) : ℝ)| ^ 2 :=
        pow_lt_pow_left₀ h (mul_nonneg htR hs.le) two_ne_zero
      rw [mul_pow, Real.sq_sqrt hvR.le, sq_abs] at h2
      exact_mod_cast h2

end DetectOutliersLemmas

/-- **C9** — `detect_outliers` returns `[]` on fewer than 3 readings for
every method (the `< 3` guard precedes the method dispatch); with the
z-score method it returns `[]` whenever the population variance of
`power_output_kwh` is 0 (so the division by `std_dev` is only performed with a
nonzero divisor); otherwise the z-score method returns exactly the readings
whose `|z| = |v − mean| / √variance` exceeds the threshold. -/
theorem detect_outliers_spec (readings : List DailyReading) (threshold : ℚ) :
    (∀ method : String, readings.length < 3 →
      DataValidator.detectOutliers readings method threshold = []) ∧
    (varQ (DataValidator.powerValues readings) = 0 →
      DataValidator.detectOutliers readings "zscore" threshold = []) ∧
    (3 ≤ readings.length → varQ (DataValidator.powerValues readings) ≠ 0 →
      ∀ r, r ∈ DataValidator.detectOutliers readings "zscore" threshold ↔
        r ∈ readings ∧ (threshold : ℝ) <
          |((r.power_output_kwh -
              meanQ (DataValidator.powerValues readings) : ℚ) : ℝ)| /
            Real.sqrt (varQ (DataValidator.powerValues readings) : ℚ)) := by
  refine ⟨?_, ?_, ?_⟩
  · intro method h
    simp [DataValidator.detectOutliers, h]
  · intro hvar
    unfold DataValidator.detectOutliers
    by_cases h3 : readings.length < 3
    · simp [h3]
    · simp only [h3, if_false, if_true, reduceIte]
      unfold DataValidator.detectOutliersZscore
      simp [hvar]
  · intro h3 hvar r
    have hpos : 0 < varQ (DataValidator.powerValues readings) :=
      lt_of_le_of_ne (varQ_nonneg _) (Ne.symm hvar)
    unfold DataValidator.detectOutliers
    rw [if_neg (by omega), if_pos rfl]
    unfold DataValidator.detectOutliersZscore
    simp only [hvar, if_false, reduceIte]
    rw [List.mem_filter]
    constructor
    · rintro ⟨hmem, hflag⟩
      exact ⟨hmem, (zscoreExceeds_iff _ _ _ _ hpos).mp hflag⟩
    · rintro ⟨hmem, hlt⟩
      exact ⟨hmem, (zscoreExceeds_iff _ _ _ _ hpos).mpr hlt⟩

/-- Witness for `detect_outliers_spec`: on a single reading (fewer than 3)
the IQR method, exercising the method-generic conjunct, returns no
outliers. -/
theorem detect_outliers_spec_witness :
    DataValidator.detectOutliers
      [{ plant_id := "P1", date := 0, power_output_kwh := 10,
         efficiency_pct := 20, temperature_c := 25, irradiance_w_m2 := 800,
         inverter_status := "OK", grid_frequency_hz := 50 }] "iqr" 3 = [] :=
  (detect_outliers_spec _ 3).1 "iqr" (by decide)

section AnomalyDetectorLemmas

open AnomalyDetector

/-- **C10** — for a baseline whose `metric_name` is none of the five
supported metrics, metric extraction yields an empty values list, every
reading is silently skipped, and `detect` returns `[]` without error. -/
theorem detect_unknown_metric (zthr mult : ℚ) (readings : List DailyReading)
    (b : Baseline)
    (h : b.metric_name ∉ ["power_output_kwh", "efficiency_pct",
      "temperature_c", "irradiance_w_m2", "grid_frequency_hz"]) :
    extractMetricFromReadings readings b.metric_name = [] ∧
    AnomalyDetector.detect zthr mult readings b = [] := by
  simp only [List.mem_cons, List.not_mem_nil, not_or, or_false] at h
  obtain ⟨h1, h2, h3, h4, h5⟩ := h
  have hex : extractMetricFromReadings readings b.metric_name = [] := by
    rw [extractMetricFromReadings, List.filterMap_eq_nil_iff]
    intro r _
    simp [h1, h2, h3, h4, h5]
  refine ⟨hex, ?_⟩
  unfold AnomalyDetector.detect
  rw [hex]
  simp

/-- Witness for `detect_unknown_metric`: a baseline for `humidity_pct`. -/
theorem detect_unknown_metric_witness :
    baselineHumidity.metric_name ∉ ["power_output_kwh", "efficiency_pct",
      "temperature_c", "irradiance_w_m2", "grid_frequency_hz"] ∧
    AnomalyDetector.detect 2 (3/2) [sampleReading] baselineHumidity = [] :=
  ⟨by decide,
   (detect_unknown_metric 2 (3/2) [sampleReading] baselineHumidity
     (by decide)).2⟩

end AnomalyDetectorLemmas

section DetectPriorityLemmas

open AnomalyDetector

/-- **C4** — per reading the z-score test runs first and the IQR test only
when it did not fire, so each reading yields at most one anomaly (the output
is never longer than the input), every anomaly is detected by exactly one
method, `z_score` is populated exactly for z-score detections, `iqr_bounds`
exactly for IQR detections, and an IQR anomaly's value never passes the
z-score test. -/
theorem detect_zscore_priority (zthr mult : ℚ)
    (readings : List DailyReading) (b : Baseline) :
    (AnomalyDetector.detect zthr mult readings b).length ≤ readings.length ∧
    ∀ a ∈ AnomalyDetector.detect zthr mult readings b,
      (a.detected_by = "zscore" ∨ a.detected_by = "iqr") ∧
      (a.z_score.isSome ↔ a.detected_by = "zscore") ∧
      (a.iqr_bounds.isSome ↔ a.detected_by = "iqr") ∧
      (a.detected_by = "iqr" →
        ¬ (b.std_dev ≠ 0 ∧ (zthr : ℝ) <
          |((a.actual_value - b.mean : ℚ) : ℝ) / b.std_dev|)) := by
  constructor
  · refine le_trans (List.length_filterMap_le _ _) ?_
    rw [List.length_zip]
    exact min_le_left _ _
  · intro a ha
    unfold AnomalyDetector.detect at ha
    rcases List.mem_filterMap.mp ha with ⟨rv, _, hf⟩
    rcases hz : detectZscoreSingle zthr rv.1 rv.2 b with _ | az
    · rw [hz] at hf
      simp only at hf
      unfold detectIqrSingle at hf
      dsimp only at hf
      split at hf
      case isTrue hcond =>
        have ha' : a = createAnomaly rv.1 rv.2 b "iqr" none
            (some (b.q1 - mult * b.iqr, b.q3 + mult * b.iqr)) :=
          (Option.some.inj hf).symm
        subst ha'
        refine ⟨Or.inr rfl, by simp [createAnomaly], by simp [createAnomaly],
          ?_⟩
        intro _
        unfold detectZscoreSingle at hz
        dsimp only at hz
        split at hz
        case isTrue h0 =>
          rintro ⟨hne, -⟩
          exact hne h0
        case isFalse h0 =>
          split at hz
          case isTrue hlt => exact absurd hz (by simp)
          case isFalse hlt =>
            rintro ⟨-, hgt⟩
            exact hlt (by simpa [createAnomaly] using hgt)
      case isFalse hcond => exact absurd hf (by simp)
    · rw [hz] at hf
      simp only at hf
      have ha' : a = az := (Option.some.inj hf).symm
      subst ha'
      unfold detectZscoreSingle at hz
      dsimp only at hz
      split at hz
      case isTrue h0 => exact absurd hz (by simp)
      case isFalse h0 =>
        split at hz
        case isTrue hlt =>
          have haz : a = createAnomaly rv.1 rv.2 b "zscore"
              (some (((rv.2 - b.mean : ℚ) : ℝ) / b.std_dev)) none :=
            (Option.some.inj hz).symm
          subst haz
          refine ⟨Or.inl rfl, by simp [createAnomaly], by simp [createAnomaly],
            ?_⟩
          intro hiqr
          exact absurd hiqr (by simp [createAnomaly])
        case isFalse hlt => exact absurd hz (by simp)

/-- Witness for `detect_zscore_priority`: on the spec §8 example the single
detected anomaly satisfies all four conjuncts. -/
theorem detect_zscore_priority_witness :
    ∀ a ∈ AnomalyDetector.detect 2 (3/2) [reading250] baseline450,
      (a.detected_by = "zscore" ∨ a.detected_by = "iqr") ∧
      (a.z_score.isSome ↔ a.detected_by = "zscore") ∧
      (a.iqr_bounds.isSome ↔ a.detected_by = "iqr") := by
  intro a ha
  have h := (detect_zscore_priority 2 (3/2) [reading250] baseline450).2 a ha
  exact ⟨h.1, h.2.1, h.2.2.1⟩

end DetectPriorityLemmas

section ZscoreExampleLemmas

open AnomalyDetector

theorem detect250_eval :
    AnomalyDetector.detect 2 (3/2) [reading250] baseline450 =
      [createAnomaly reading250 250 baseline450 "zscore"
        (some ((((250 : ℚ) - 450 : ℚ) : ℝ) / 45)) none] := by
  have hex : extractMetricFromReadings [reading250] baseline450.metric_name
      = [(250 : ℚ)] := rfl
  unfold AnomalyDetector.detect
  rw [hex]
  have hzip : [reading250].zip [(250 : ℚ)] = [(reading250, (250 : ℚ))] := rfl
  rw [hzip]
  have hstd : baseline450.std_dev = (45 : ℝ) := rfl
  have hzs : detectZscoreSingle 2 reading250 250 baseline450 =
      some (createAnomaly reading250 250 baseline450 "zscore"
        (some ((((250 : ℚ) - 450 : ℚ) : ℝ) / 45)) none) := by
    unfold detectZscoreSingle
    rw [hstd]
    rw [if_neg (by norm_num)]
    rw [if_pos]
    · have hm : baseline450.mean = (450 : ℚ) := rfl
      rw [hm]
    · have hm : baseline450.mean = (450 : ℚ) := rfl
      rw [hm]
      push_cast
      rw [abs_div]
      norm_num
  simp [List.filterMap, hzs]

/-- **C6** — spec §8's worked example: baseline mean 450 / std 45 and value
250 produce exactly one anomaly, detected by z-score, with
`z = (250 − 450)/45` (within 0.01 of −4.44), `deviation_pct =
(250 − 450)/450·100` (within 0.1 of −44.4) and severity "high". -/
theorem zscore_example_spec :
    ∃ a, AnomalyDetector.detect 2 (3/2) [reading250] baseline450 = [a] ∧
      a.detected_by = "zscore" ∧
      a.z_score = some ((((250 : ℚ) - 450 : ℚ) : ℝ) / 45) ∧
      (∀ z, a.z_score = some z → |z - (-(111 / 25))| < 1 / 100) ∧
      a.deviation_pct = (250 - 450) / 450 * 100 ∧
      |a.deviation_pct - (-(222 / 5))| < 1 / 10 ∧
      a.severity = "high" := by
  refine ⟨_, detect250_eval, rfl, rfl, ?_, ?_, ?_, ?_⟩
  · intro z hz
    have hzeq : z = (((250 : ℚ) - 450 : ℚ) : ℝ) / 45 :=
      (Option.some.inj hz).symm
    subst hzeq
    push_cast
    rw [show ((250 : ℝ) - 450) / 45 - -(111 / 25) = -(1 / 225) by norm_num]
    rw [abs_neg, abs_of_pos (by norm_num)]
    norm_num
  · show (if (baseline450.mean ≠ 0) then
      ((250 : ℚ) - baseline450.mean) / baseline450.mean * 100 else 0)
      = (250 - 450) / 450 * 100
    norm_num [show baseline450.mean = (450 : ℚ) from rfl]
  · show |(if (baseline450.mean ≠ 0) then
      ((250 : ℚ) - baseline450.mean) / baseline450.mean * 100 else 0)
      - (-(222 / 5))| < 1 / 10
    rw [show baseline450.mean = (450 : ℚ) from rfl]
    rw [if_pos (by norm_num)]
    rw [show ((250 : ℚ) - 450) / 450 * 100 - -(222 / 5) = -2 / 45 by norm_num]
    rw [abs_div]
    norm_num
  · show classifySeverity (if (baseline450.mean ≠ 0) then
      ((250 : ℚ) - baseline450.mean) / baseline450.mean * 100 else 0)
      = "high"
    rw [show baseline450.mean = (450 : ℚ) from rfl]
    rw [if_pos (by norm_num)]
    rw [show ((250 : ℚ) - 450) / 450 * 100 = -400 / 9 by norm_num]
    unfold classifySeverity
    rw [show |(-400 / 9 : ℚ)| = 400 / 9 by rw [abs_div]; norm_num]
    norm_num

end ZscoreExampleLemmas

section PercentileLemmas

theorem sorted_getD_mono (s : List ℚ) (hs : s.Sorted (· ≤ ·)) {i j : ℕ}
    (hij : i ≤ j) (hj : j < s.length) : s.getD i 0 ≤ s.getD j 0 := by
  have hi : i < s.length := lt_of_le_of_lt hij hj
  rw [List.getD_eq_getElem s 0 hi, List.getD_eq_getElem s 0 hj]
  rcases lt_or_eq_of_le hij with hlt | rfl
  · exact List.pairwise_iff_getElem.mp hs i j hi hj hlt
  · exact le_refl _

theorem interpAt_floor_facts (s : List ℚ) {pos : ℚ} (h0 : 0 ≤ pos)
    (h1 : pos ≤ (s.length : ℚ) - 1) :
    ((⌊pos⌋.toNat : ℚ) ≤ pos ∧ pos < (⌊pos⌋.toNat : ℚ) + 1) ∧
      ⌊pos⌋.toNat < s.length := by
  have hfl : (0 : ℤ) ≤ ⌊pos⌋ := Int.floor_nonneg.mpr h0
  have htn : (⌊pos⌋.toNat : ℤ) = ⌊pos⌋ := Int.toNat_of_nonneg hfl
  have hcast : ((⌊pos⌋.toNat : ℚ)) = ((⌊pos⌋ : ℤ) : ℚ) := by exact_mod_cast htn
  have hle : (⌊pos⌋.toNat : ℚ) ≤ pos := by
    rw [hcast]; exact Int.floor_le pos
  refine ⟨⟨hle, ?_⟩, ?_⟩
  · rw [hcast]; exact Int.lt_floor_add_one pos
  · by_contra hge
    push_neg at hge
    have hq : ((s.length : ℚ)) ≤ (⌊pos⌋.toNat : ℚ) := by exact_mod_cast hge
    linarith

theorem interpAt_ge (s : List ℚ) (hs : s.Sorted (· ≤ ·)) {pos : ℚ}
    (h0 : 0 ≤ pos) (h1 : pos ≤ (s.length : ℚ) - 1) :
    s.getD ⌊pos⌋.toNat 0 ≤ interpAt s pos := by
  obtain ⟨⟨hle, hlt⟩, hin⟩ := interpAt_floor_facts s h0 h1
  unfold interpAt
  dsimp only
  have hγ : 0 ≤ pos - (⌊pos⌋.toNat : ℚ) := sub_nonneg.mpr hle
  have hlohi : s.getD ⌊pos⌋.toNat 0 ≤
      s.getD (⌊pos⌋.toNat + 1) (s.getD ⌊pos⌋.toNat 0) := by
    by_cases h : ⌊pos⌋.toNat + 1 < s.length
    · rw [List.getD_eq_getElem s _ h, ← List.getD_eq_getElem s 0 h]
      exact sorted_getD_mono s hs (Nat.le_succ _) h
    · rw [List.getD_eq_default s _ (le_of_not_lt h)]
  nlinarith [mul_nonneg hγ (sub_nonneg.mpr hlohi)]

theorem interpAt_le_next (s : List ℚ) (hs : s.Sorted (· ≤ ·)) {pos : ℚ}
    (h0 : 0 ≤ pos) (h1 : pos ≤ (s.length : ℚ) - 1)
    (h : ⌊pos⌋.toNat + 1 < s.length) :
    interpAt s pos ≤ s.getD (⌊pos⌋.toNat + 1) 0 := by
  obtain ⟨⟨hle, hlt⟩, hin⟩ := interpAt_floor_facts s h0 h1
  unfold interpAt
  dsimp only
  have hγ0 : 0 ≤ pos - (⌊pos⌋.toNat : ℚ) := sub_nonneg.mpr hle
  have hγ1 : pos - (⌊pos⌋.toNat : ℚ) ≤ 1 := by linarith
  have hrw : s.getD (⌊pos⌋.toNat + 1) (s.getD ⌊pos⌋.toNat 0) =
      s.getD (⌊pos⌋.toNat + 1) 0 := by
    rw [List.getD_eq_getElem s _ h, ← List.getD_eq_getElem s 0 h]
  rw [hrw]
  have hlohi : s.getD ⌊pos⌋.toNat 0 ≤ s.getD (⌊pos⌋.toNat + 1) 0 :=
    sorted_getD_mono s hs (Nat.le_succ _) h
  nlinarith

theorem interpAt_le_last (s : List ℚ) (hs : s.Sorted (· ≤ ·)) {pos : ℚ}
    (h0 : 0 ≤ pos) (h1 : pos ≤ (s.length : ℚ) - 1) :
    interpAt s pos ≤ s.getD (s.length - 1) 0 := by
  obtain ⟨⟨hle, hlt⟩, hin⟩ := interpAt_floor_facts s h0 h1
  by_cases h : ⌊pos⌋.toNat + 1 < s.length
  · refine le_trans (interpAt_le_next s hs h0 h1 h) ?_
    exact sorted_getD_mono s hs (by omega) (by omega)
  · unfold interpAt
    dsimp only
    rw [List.getD_eq_default s _ (le_of_not_lt h)]
    have heq : ⌊pos⌋.toNat = s.length - 1 := by omega
    rw [heq]
    nlinarith

theorem interpAt_mono (s : List ℚ) (hs : s.Sorted (· ≤ ·)) {p1 p2 : ℚ}
    (h0 : 0 ≤ p1) (h12 : p1 ≤ p2) (h2 : p2 ≤ (s.length : ℚ) - 1) :
    interpAt s p1 ≤ interpAt s p2 := by
  have h01 : 0 ≤ p2 := le_trans h0 h12
  have h1' : p1 ≤ (s.length : ℚ) - 1 := le_trans h12 h2
  obtain ⟨⟨hle1, hlt1⟩, hin1⟩ := interpAt_floor_facts s h0 h1'
  obtain ⟨⟨hle2, hlt2⟩, hin2⟩ := interpAt_floor_facts s h01 h2
  have hii : ⌊p1⌋.toNat ≤ ⌊p2⌋.toNat :=
    Int.toNat_le_toNat (Int.floor_le_floor h12)
  rcases lt_or_eq_of_le hii with hlt | heq
  · have hnext : ⌊p1⌋.toNat + 1 < s.length := by omega
    refine le_trans (interpAt_le_next s hs h0 h1' hnext) (le_trans ?_
      (interpAt_ge s hs h01 h2))
    exact sorted_getD_mono s hs (by omega) hin2
  · unfold interpAt
    dsimp only
    rw [← heq]
    have hlohi : s.getD ⌊p1⌋.toNat 0 ≤
        s.getD (⌊p1⌋.toNat + 1) (s.getD ⌊p1⌋.toNat 0) := by
      by_cases h : ⌊p1⌋.toNat + 1 < s.length
      · rw [List.getD_eq_getElem s _ h, ← List.getD_eq_getElem s 0 h]
        exact sorted_getD_mono s hs (Nat.le_succ _) h
      · rw [List.getD_eq_default s _ (le_of_not_lt h)]
    have hmul := mul_le_mul_of_nonneg_right
      (sub_le_sub_right h12 ((⌊p1⌋.toNat : ℚ))) (sub_nonneg.mpr hlohi)
    linarith

theorem headD_eq_getD (s : List ℚ) : s.headD 0 = s.getD 0 0 := by
  cases s <;> rfl

theorem getLastD_eq_getD (s : List ℚ) (h : s ≠ []) :
    s.getLastD 0 = s.getD (s.length - 1) 0 := by
  have hpos : 0 < s.length := List.length_pos.mpr h
  rw [List.getLastD_eq_getLast?, List.getLast?_eq_getLast_of_ne_nil h]
  rw [Option.getD_some, List.getLast_eq_getElem]
  rw [List.getD_eq_getElem s 0 (by omega)]

theorem sortQ_sorted (l : List ℚ) : (sortQ l).Sorted (· ≤ ·) := by
  have h := sortBy_sorted (id : ℚ → ℚ) l
  simpa [sortQ] using h

theorem sortQ_length (l : List ℚ) : (sortQ l).length = l.length :=
  sortBy_length id l

theorem percentileQ_pos_bounds (l : List ℚ) (hl : l ≠ []) {p : ℚ}
    (hp0 : 0 ≤ p) (hp1 : p ≤ 100) :
    0 ≤ p / 100 * (((sortQ l).length : ℚ) - 1) ∧
    p / 100 * (((sortQ l).length : ℚ) - 1) ≤ ((sortQ l).length : ℚ) - 1 := by
  have hlen : 1 ≤ (sortQ l).length := by
    rw [sortQ_length]
    exact List.length_pos.mpr hl
  have hlen' : (1 : ℚ) ≤ ((sortQ l).length : ℚ) := by exact_mod_cast hlen
  constructor
  · apply mul_nonneg (by positivity)
    linarith
  · have hp' : p / 100 ≤ 1 := by linarith
    nlinarith

theorem percentileQ_mono (l : List ℚ) (hl : l ≠ []) {p q : ℚ}
    (hp : 0 ≤ p) (hpq : p ≤ q) (hq : q ≤ 100) :
    percentileQ l p ≤ percentileQ l q := by
  have hne : (sortQ l).length ≠ 0 := by
    rw [sortQ_length]
    exact fun h => hl (List.length_eq_zero.mp h)
  unfold percentileQ
  rw [if_neg hne, if_neg hne]
  obtain ⟨h0p, h1p⟩ := percentileQ_pos_bounds l hl hp (le_trans hpq hq)
  obtain ⟨h0q, h1q⟩ := percentileQ_pos_bounds l hl (le_trans hp hpq) hq
  apply interpAt_mono (sortQ l) (sortQ_sorted l) h0p ?_ h1q
  have hlen : 1 ≤ (sortQ l).length := by
    rw [sortQ_length]; exact List.length_pos.mpr hl
  have hlen' : (1 : ℚ) ≤ ((sortQ l).length : ℚ) := by exact_mod_cast hlen
  apply mul_le_mul_of_nonneg_right (by linarith) (by linarith)

theorem minQ_le_percentileQ (l : List ℚ) (hl : l ≠ []) {p : ℚ}
    (hp0 : 0 ≤ p) (hp1 : p ≤ 100) : minQ l ≤ percentileQ l p := by
  have hne : (sortQ l).length ≠ 0 := by
    rw [sortQ_length]
    exact fun h => hl (List.length_eq_zero.mp h)
  unfold percentileQ minQ
  rw [if_neg hne, headD_eq_getD]
  obtain ⟨h0, h1⟩ := percentileQ_pos_bounds l hl hp0 hp1
  refine le_trans ?_ (interpAt_ge (sortQ l) (sortQ_sorted l) h0 h1)
  obtain ⟨-, hin⟩ := interpAt_floor_facts (sortQ l) h0 h1
  exact sorted_getD_mono (sortQ l) (sortQ_sorted l) (Nat.zero_le _) hin

theorem percentileQ_le_maxQ (l : List ℚ) (hl : l ≠ []) {p : ℚ}
    (hp0 : 0 ≤ p) (hp1 : p ≤ 100) : percentileQ l p ≤ maxQ l := by
  have hne : (sortQ l).length ≠ 0 := by
    rw [sortQ_length]
    exact fun h => hl (List.length_eq_zero.mp h)
  have hsne : sortQ l ≠ [] := fun h => hne (by rw [h]; rfl)
  unfold percentileQ maxQ
  rw [if_neg hne, getLastD_eq_getD _ hsne]
  obtain ⟨h0, h1⟩ := percentileQ_pos_bounds l hl hp0 hp1
  exact interpAt_le_last (sortQ l) (sortQ_sorted l) h0 h1

end PercentileLemmas

section CalculateLemmas

open BaselineCalculator

/-- **C5** — `calculate` raises the insufficient-samples error for every
input with fewer than 13 readings; for at least 13 readings of a valid
metric it returns a baseline with `min_val ≤ q1 ≤ q2 ≤ q3 ≤ max_val` and
`iqr = q3 − q1`. -/
theorem calculate_spec (readings : List DailyReading) (pid metric : String)
    (pn : Option String) :
    (readings.length < 13 →
      BaselineCalculator.calculate readings pid metric pn =
        .error ("Insufficient samples: " ++ toString readings.length ++
          " < 13")) ∧
    (13 ≤ readings.length → metric ∈ validMetrics →
      ∃ b, BaselineCalculator.calculate readings pid metric pn = .ok b ∧
        b.min_val ≤ b.q1 ∧ b.q1 ≤ b.q2 ∧ b.q2 ≤ b.q3 ∧ b.q3 ≤ b.max_val ∧
        b.iqr = b.q3 - b.q1) := by
  constructor
  · intro h
    unfold BaselineCalculator.calculate
    rw [if_pos (by simpa [BASELINE_MIN_SAMPLES] using h)]
  · intro h13 hmem
    unfold BaselineCalculator.calculate
    rw [if_neg (by simp only [BASELINE_MIN_SAMPLES]; omega)]
    have hex : extractMetricValues readings metric =
        .ok (readings.map (metricAccessor metric)) := by
      unfold extractMetricValues
      rw [if_pos hmem]
    rw [hex]
    have hlen : (readings.map (metricAccessor metric)).length =
        readings.length := List.length_map _ _
    have hne0 : ¬ ((readings.map (metricAccessor metric)).length = 0) := by
      omega
    dsimp only
    rw [if_neg hne0]
    have hvne : readings.map (metricAccessor metric) ≠ [] :=
      fun h => hne0 (by rw [h]; rfl)
    refine ⟨_, rfl, ?_, ?_, ?_, ?_, rfl⟩
    · exact minQ_le_percentileQ _ hvne (by norm_num) (by norm_num)
    · exact percentileQ_mono _ hvne (by norm_num) (by norm_num) (by norm_num)
    · exact percentileQ_mono _ hvne (by norm_num) (by norm_num) (by norm_num)
    · exact percentileQ_le_maxQ _ hvne (by norm_num) (by norm_num)

/-- Witness for `calculate_spec`: thirteen readings of a valid metric give a
quartile-ordered baseline. -/
theorem calculate_spec_witness :
    (13 ≤ thirteenReadings.length) ∧
    ("power_output_kwh" ∈ BaselineCalculator.validMetrics) ∧
    ∃ b, BaselineCalculator.calculate thirteenReadings "PLANT_001"
        "power_output_kwh" none = .ok b ∧
      b.min_val ≤ b.q1 ∧ b.q1 ≤ b.q2 ∧ b.q2 ≤ b.q3 ∧ b.q3 ≤ b.max_val ∧
      b.iqr = b.q3 - b.q1 :=
  ⟨by decide, by decide,
   (calculate_spec thirteenReadings "PLANT_001" "power_output_kwh" none).2
     (by decide) (by decide)⟩

end CalculateLemmas

section CombinedInsightsLemmas

open InsightsEngine

theorem generateCombinedInsights_eval :
    InsightsEngine.generateCombinedInsights [anomalyM]
      [patternM1, patternM2] = [combinedM] := rfl

/-- Counterexample to **C2**: one anomaly with two patterns sharing its
metric yields a single combined insight (linking both patterns), not one
insight per (anomaly, pattern) pair — the combined-insight count is not the
pair count 2. -/
theorem combined_insights_count_counterexample :
    (InsightsEngine.generateCombinedInsights [anomalyM]
      [patternM1, patternM2]).length = 1 ∧
    ([anomalyM].map (fun a => ([patternM1, patternM2].filter
      (fun p => p.metric_name == a.metric_name)).length)).sum = 2 ∧
    ¬ ((InsightsEngine.generateCombinedInsights [anomalyM]
        [patternM1, patternM2]).length =
      ([anomalyM].map (fun a => ([patternM1, patternM2].filter
        (fun p => p.metric_name == a.metric_name)).length)).sum) := by
  refine ⟨?_, rfl, ?_⟩
  · rw [generateCombinedInsights_eval]
    rfl
  · rw [generateCombinedInsights_eval]
    intro h
    have h2 : (1 : ℕ) = 2 := by
      calc (1 : ℕ) = [combinedM].length := rfl
        _ = _ := h
        _ = 2 := rfl
    omega

end CombinedInsightsLemmas

section CombinedInsightsAmended

open InsightsEngine

/-- **C2 amended** — the combined-insight stage emits exactly one combined
insight per anomaly that has at least one pattern sharing its `metric_name`
(not one per (anomaly, pattern) pair); that insight links all matching
patterns, its confidence is `min(100, (anomaly confidence + mean matching
pattern confidence)/2)`, and its urgency is re-derived from the (unclamped)
combined score via the score thresholds. -/
theorem combined_insights_per_anomaly (anomalies : List Anomaly)
    (patterns : List Pattern) :
    (InsightsEngine.generateCombinedInsights anomalies patterns).length =
      (anomalies.filter (fun a => !(patterns.filter
        (fun p => p.metric_name == a.metric_name)).isEmpty)).length ∧
    ∀ ins ∈ InsightsEngine.generateCombinedInsights anomalies patterns,
      ∃ a ∈ anomalies,
        (patterns.filter (fun p => p.metric_name == a.metric_name)) ≠ [] ∧
        ins.linked_anomalies = [a.anomaly_id] ∧
        ins.linked_patterns = (patterns.filter
          (fun p => p.metric_name == a.metric_name)).map (·.pattern_id) ∧
        ins.confidence = min 100
          ((calculateConfidenceFromAnomaly a +
            ((patterns.filter (fun p => p.metric_name == a.metric_name)).map
              (·.confidence_pct)).sum /
            (((patterns.filter
              (fun p => p.metric_name == a.metric_name)).length : ℝ))) / 2) ∧
        ins.urgency = mapScoreToUrgency
          ((calculateConfidenceFromAnomaly a +
            ((patterns.filter (fun p => p.metric_name == a.metric_name)).map
              (·.confidence_pct)).sum /
            (((patterns.filter
              (fun p => p.metric_name == a.metric_name)).length : ℝ))) / 2) := by
  constructor
  · induction anomalies with
    | nil => rfl
    | cons a as ih =>
      unfold InsightsEngine.generateCombinedInsights at ih ⊢
      rw [List.filterMap_cons, List.filter_cons]
      by_cases h : (patterns.filter
          (fun p => p.metric_name == a.metric_name)).isEmpty
      · simp only [h, if_pos, Bool.not_true, if_neg, cond_false]
        simpa [h] using ih
      · have hb : (!(patterns.filter
            (fun p => p.metric_name == a.metric_name)).isEmpty) = true := by
          simp [h]
        simp only [h, hb, if_true, cond_true]
        simpa [h] using congrArg Nat.succ ih
  · intro ins hins
    unfold InsightsEngine.generateCombinedInsights at hins
    rcases List.mem_filterMap.mp hins with ⟨a, ha, hf⟩
    refine ⟨a, ha, ?_⟩
    dsimp only at hf
    by_cases h : (patterns.filter
        (fun p => p.metric_name == a.metric_name)).isEmpty
    · rw [if_pos h] at hf
      exact absurd hf (by simp)
    · rw [if_neg h] at hf
      have hins' := (Option.some.inj hf).symm
      subst hins'
      refine ⟨fun hh => h (by rw [hh]; rfl), rfl, rfl, rfl, rfl⟩

/-- Witness for `combined_insights_per_anomaly` at the concrete fixture
instance. -/
theorem combined_insights_per_anomaly_witness :
    ∃ a ∈ [anomalyM],
      ([patternM1, patternM2].filter
        (fun p => p.metric_name == a.metric_name)) ≠ [] ∧
      combinedM.linked_anomalies = [a.anomaly_id] ∧
      combinedM.linked_patterns = ([patternM1, patternM2].filter
        (fun p => p.metric_name == a.metric_name)).map (·.pattern_id) ∧
      combinedM.confidence = min 100
        ((calculateConfidenceFromAnomaly a +
          (([patternM1, patternM2].filter
            (fun p => p.metric_name == a.metric_name)).map
            (·.confidence_pct)).sum /
          ((([patternM1, patternM2].filter
            (fun p => p.metric_name == a.metric_name)).length : ℝ))) / 2) ∧
      combinedM.urgency = mapScoreToUrgency
        ((calculateConfidenceFromAnomaly a +
          (([patternM1, patternM2].filter
            (fun p => p.metric_name == a.metric_name)).map
            (·.confidence_pct)).sum /
          ((([patternM1, patternM2].filter
            (fun p => p.metric_name == a.metric_name)).length : ℝ))) / 2) :=
  (combined_insights_per_anomaly [anomalyM] [patternM1, patternM2]).2
    combinedM (by rw [generateCombinedInsights_eval]; exact
      List.mem_singleton.mpr rfl)

end CombinedInsightsAmended

section PatternOccurrenceLemmas

open PatternDetector

theorem mkPattern_ok_occurrence {pid plid pt mn d f : String}
    {amp : Option ℚ} {sig : ℚ} {conf : ℝ} {fd ld : ℤ} {occ : ℤ}
    {ap : List String} {fw : Bool} {p : Pattern}
    (h : mkPattern pid plid pt mn d f amp sig conf fd ld occ ap fw = .ok p) :
    2 ≤ p.occurrence_count := by
  unfold mkPattern at h
  split at h
  case isTrue hc =>
    have hp := Except.ok.inj h
    rw [← hp]
    exact hc.2.2.2.2
  case isFalse hc => exact absurd h (by simp)

theorem exceptMap_singleton_occ {x : Except String Pattern}
    {l : List Pattern} (h : x.map (fun p => [p]) = .ok l)
    (hx : ∀ q, x = .ok q → 2 ≤ q.occurrence_count) :
    l.all (fun p => decide (2 ≤ p.occurrence_count)) = true := by
  cases x with
  | error e => exact absurd h (by simp [Except.map])
  | ok q =>
    have hl : [q] = l := by simpa [Except.map] using h
    rw [← hl]
    simp [hx q rfl]

theorem detectSeasonal_occurrence (pid : String)
    (readings : List DailyReading) (mn : String) :
    (match detectSeasonal pid readings mn with
      | .ok l => l.all (fun p => decide (2 ≤ p.occurrence_count))
      | .error _ => true) = true := by
  rcases hS : detectSeasonal pid readings mn with e | l
  · rfl
  · show l.all _ = true
    unfold detectSeasonal at hS
    split at hS
    · rw [← Except.ok.inj hS]; rfl
    · split at hS
      · rw [← Except.ok.inj hS]; rfl
      · dsimp only at hS
        split at hS
        · rw [← Except.ok.inj hS]; rfl
        · split at hS
          · exact exceptMap_singleton_occ hS
              (fun q hq => mkPattern_ok_occurrence hq)
          · rw [← Except.ok.inj hS]; rfl

theorem detectWeeklyCycle_occurrence (pid : String)
    (readings : List DailyReading) (mn : String) :
    (match detectWeeklyCycle pid readings mn with
      | .ok l => l.all (fun p => decide (2 ≤ p.occurrence_count))
      | .error _ => true) = true := by
  rcases hS : detectWeeklyCycle pid readings mn with e | l
  · rfl
  · show l.all _ = true
    unfold detectWeeklyCycle at hS
    split at hS
    · rw [← Except.ok.inj hS]; rfl
    · split at hS
      · rw [← Except.ok.inj hS]; rfl
      · dsimp only at hS
        split at hS
        · rw [← Except.ok.inj hS]; rfl
        · split at hS
          · exact exceptMap_singleton_occ hS
              (fun q hq => mkPattern_ok_occurrence hq)
          · rw [← Except.ok.inj hS]; rfl

theorem detectDegradation_occurrence (pid : String)
    (readings : List DailyReading) (mn : String) :
    (match detectDegradation pid readings mn with
      | .ok l => l.all (fun p => decide (2 ≤ p.occurrence_count))
      | .error _ => true) = true := by
  rcases hS : detectDegradation pid readings mn with e | l
  · rfl
  · show l.all _ = true
    unfold detectDegradation at hS
    split at hS
    · rw [← Except.ok.inj hS]; rfl
    · split at hS
      · rw [← Except.ok.inj hS]; rfl
      · dsimp only at hS
        split at hS
        · split at hS
          · exact exceptMap_singleton_occ hS
              (fun q hq => mkPattern_ok_occurrence hq)
          · rw [← Except.ok.inj hS]; rfl
        · rw [← Except.ok.inj hS]; rfl

/-- **C3** — every `Pattern` the detector emits (via `detect` or any of the
three sub-detectors, on any input) has `occurrence_count ≥ 2`: the seasonal
and weekly detectors clamp it from below (`max(..., 2)` / `max(..., 4)`),
and a degradation pattern with `int(years) < 2` cannot be constructed — the
pydantic `ge=2` validation raises instead, so no such pattern is emitted. -/
theorem pattern_occurrence_spec (pid : String)
    (readings : List DailyReading) (mn : String) :
    ((PatternDetector.detect pid readings mn).all
      (fun p => decide (2 ≤ p.occurrence_count)) = true) ∧
    ((match PatternDetector.detectSeasonal pid readings mn with
      | .ok l => l.all (fun p => decide (2 ≤ p.occurrence_count))
      | .error _ => true) = true) ∧
    ((match PatternDetector.detectWeeklyCycle pid readings mn with
      | .ok l => l.all (fun p => decide (2 ≤ p.occurrence_count))
      | .error _ => true) = true) ∧
    ((match PatternDetector.detectDegradation pid readings mn with
      | .ok l => l.all (fun p => decide (2 ≤ p.occurrence_count))
      | .error _ => true) = true) := by
  refine ⟨?_, detectSeasonal_occurrence pid readings mn,
    detectWeeklyCycle_occurrence pid readings mn,
    detectDegradation_occurrence pid readings mn⟩
  unfold PatternDetector.detect
  split
  · rfl
  · split
    · rfl
    · rw [List.all_append, List.all_append]
      have h1 := detectSeasonal_occurrence pid readings mn
      have h2 := detectWeeklyCycle_occurrence pid readings mn
      have h3 := detectDegradation_occurrence pid readings mn
      rcases hS : detectSeasonal pid readings mn with e | l1 <;>
        rcases hW : detectWeeklyCycle pid readings mn with e2 | l2 <;>
        rcases hD : detectDegradation pid readings mn with e3 | l3 <;>
        rw [hS] at h1 <;> rw [hW] at h2 <;> rw [hD] at h3 <;>
        simp_all

end PatternOccurrenceLemmas

section PipelineLemmas

open DataPipeline

theorem find?_map_overwrite {α : Type} (k k' : String) (v : α)
    (h : k' ≠ k) (m : List (String × α)) :
    (m.map (fun kv => if kv.1 == k then (k, v) else kv)).find?
        (fun kv => kv.1 == k') =
      m.find? (fun kv => kv.1 == k') := by
  induction m with
  | nil => rfl
  | cons kv t ih =>
    by_cases hk : (kv.1 == k) = true
    · have hkeq : kv.1 = k := by simpa using hk
      have h1 : ¬ (((k, v).1 == k') = true) := by
        simp only [beq_iff_eq]
        exact fun hh => h hh.symm
      have h2 : ¬ ((kv.1 == k') = true) := by
        simp only [beq_iff_eq, hkeq]
        exact fun hh => h hh.symm
      simp only [List.map_cons, if_pos hk]
      rw [@List.find?_cons_of_neg _ (fun kv => kv.1 == k') (k, v) _ h1,
        @List.find?_cons_of_neg _ (fun kv => kv.1 == k') kv _ h2]
      exact ih
    · simp only [List.map_cons, if_neg hk]
      by_cases hp : (kv.1 == k') = true
      · rw [@List.find?_cons_of_pos _ (fun kv => kv.1 == k') kv _ hp,
          @List.find?_cons_of_pos _ (fun kv => kv.1 == k') kv _ hp]
      · rw [@List.find?_cons_of_neg _ (fun kv => kv.1 == k') kv _ hp,
          @List.find?_cons_of_neg _ (fun kv => kv.1 == k') kv _ hp]
        exact ih

theorem find?_map_overwrite_self {α : Type} (k : String) (v : α)
    (m : List (String × α))
    (hany : m.any (fun kv => kv.1 == k) = true) :
    (m.map (fun kv => if kv.1 == k then (k, v) else kv)).find?
      (fun kv => kv.1 == k) = some (k, v) := by
  induction m with
  | nil => simp at hany
  | cons kv t ih =>
    by_cases hk : (kv.1 == k) = true
    · simp only [List.map_cons, if_pos hk]
      exact @List.find?_cons_of_pos _ (fun kv => kv.1 == k) (k, v) _ (by simp)
    · simp only [List.map_cons, if_neg hk]
      rw [@List.find?_cons_of_neg _ (fun kv => kv.1 == k) kv _ hk]
      apply ih
      simpa [List.any_cons, hk] using hany

theorem getEntry_setEntry_ne {α : Type} (m : List (String × α))
    (k k' : String) (v : α) (h : k' ≠ k) :
    getEntry (setEntry m k v) k' = getEntry m k' := by
  unfold getEntry setEntry
  by_cases hany : (m.any (fun kv => kv.1 == k)) = true
  · rw [if_pos hany, find?_map_overwrite k k' v h m]
  · rw [if_neg hany, List.find?_append]
    have hone : List.find? (fun kv => kv.1 == k') [(k, v)] = none := by
      rw [@List.find?_cons_of_neg _ (fun kv => kv.1 == k') (k, v) _ (by
        simp only [beq_iff_eq]
        exact fun hh => h hh.symm)]
      rfl
    rw [hone, Option.or_none]

theorem getEntry_setEntry_self {α : Type} (m : List (String × α))
    (k : String) (v : α) : getEntry (setEntry m k v) k = some v := by
  unfold getEntry setEntry
  by_cases hany : (m.any (fun kv => kv.1 == k)) = true
  · rw [if_pos hany, find?_map_overwrite_self k v m hany]
    rfl
  · rw [if_neg hany, List.find?_append]
    have hnone : m.find? (fun kv => kv.1 == k) = none :=
      List.find?_eq_none.mpr (fun x hx hpx =>
        hany (List.any_eq_true.mpr ⟨x, hx, hpx⟩))
    rw [hnone, Option.none_or,
      @List.find?_cons_of_pos _ (fun kv => kv.1 == k) (k, v) _ (by simp)]
    rfl

theorem metricStep_readings (p : String) (r3 : List DailyReading)
    (acc : PipelineResult) (m : String) :
    (metricStep p r3 acc m).readings_by_plant = acc.readings_by_plant := rfl

theorem metricsFold_readings (p : String) (r3 : List DailyReading) :
    ∀ (ms : List String) (acc : PipelineResult),
      ((ms.foldl (metricStep p r3) acc).readings_by_plant) =
        acc.readings_by_plant := by
  intro ms
  induction ms with
  | nil => intro acc; rfl
  | cons m t ih =>
    intro acc
    rw [List.foldl_cons, ih, metricStep_readings]

theorem metricsFold_baselines_ne (p : String) (r3 : List DailyReading)
    (q : String) (h : q ≠ p) :
    ∀ (ms : List String) (acc : PipelineResult),
      getEntry ((ms.foldl (metricStep p r3) acc).baselines_by_plant) q =
        getEntry acc.baselines_by_plant q := by
  intro ms
  induction ms with
  | nil => intro acc; rfl
  | cons m t ih =>
    intro acc
    rw [List.foldl_cons, ih]
    exact getEntry_setEntry_ne _ _ _ _ h

theorem metricsFold_anomalies_ne (p : String) (r3 : List DailyReading)
    (q : String) (h : q ≠ p) :
    ∀ (ms : List String) (acc : PipelineResult),
      getEntry ((ms.foldl (metricStep p r3) acc).anomalies_by_plant) q =
        getEntry acc.anomalies_by_plant q := by
  intro ms
  induction ms with
  | nil => intro acc; rfl
  | cons m t ih =>
    intro acc
    rw [List.foldl_cons, ih]
    exact getEntry_setEntry_ne _ _ _ _ h

theorem metricsFold_warnings_append (p : String) (r3 : List DailyReading) :
    ∀ (ms : List String) (acc : PipelineResult),
      ∃ t, (ms.foldl (metricStep p r3) acc).warnings = acc.warnings ++ t := by
  intro ms
  induction ms with
  | nil => intro acc; exact ⟨[], (List.append_nil _).symm⟩
  | cons m t ih =>
    intro acc
    obtain ⟨t1, ht1⟩ := ih (metricStep p r3 acc m)
    rw [List.foldl_cons] at *
    refine ⟨(analyzeMetric p r3 m).2.2.1 ++ t1, ?_⟩
    rw [ht1]
    show (acc.warnings ++ (analyzeMetric p r3 m).2.2.1) ++ t1 = _
    rw [List.append_assoc]

end PipelineLemmas

section PipelineLemmas2

open DataPipeline

theorem metricsFold_insufficient (p : String) (r3 : List DailyReading)
    (h13 : r3.length < 13) :
    ∀ (ms : List String) (acc : PipelineResult),
      getEntry acc.baselines_by_plant p = some [] →
      getEntry acc.anomalies_by_plant p = some [] →
      getEntry ((ms.foldl (metricStep p r3) acc).baselines_by_plant) p =
          some [] ∧
      getEntry ((ms.foldl (metricStep p r3) acc).anomalies_by_plant) p =
          some [] ∧
      (ms.foldl (metricStep p r3) acc).errors = acc.errors ∧
      (∀ w ∈ acc.warnings, w ∈ (ms.foldl (metricStep p r3) acc).warnings) ∧
      (∀ m ∈ ms, insuffMsg p m r3.length ∈
        (ms.foldl (metricStep p r3) acc).warnings) := by
  intro ms
  induction ms with
  | nil =>
    intro acc hb ha
    exact ⟨hb, ha, rfl, fun w hw => hw, by simp⟩
  | cons m t ih =>
    intro acc hb ha
    have hres : analyzeMetric p r3 m =
        ([], [], [insuffMsg p m r3.length], []) := by
      unfold analyzeMetric
      rw [if_pos h13]
    have hstep_b : getEntry (metricStep p r3 acc m).baselines_by_plant p =
        some [] := by
      unfold metricStep
      dsimp only
      rw [hres, hb]
      exact getEntry_setEntry_self _ _ _
    have hstep_a : getEntry (metricStep p r3 acc m).anomalies_by_plant p =
        some [] := by
      unfold metricStep
      dsimp only
      rw [hres, ha]
      show getEntry (setEntry acc.anomalies_by_plant p ([] ++ [])) p = some []
      exact getEntry_setEntry_self _ _ _
    have hstep_w : (metricStep p r3 acc m).warnings =
        acc.warnings ++ [insuffMsg p m r3.length] := by
      unfold metricStep
      dsimp only
      rw [hres]
    have hstep_e : (metricStep p r3 acc m).errors = acc.errors := by
      unfold metricStep
      dsimp only
      rw [hres]
      exact List.append_nil _
    rw [List.foldl_cons]
    obtain ⟨ihb, iha, ihe, ihw, ihm⟩ := ih (metricStep p r3 acc m)
      hstep_b hstep_a
    refine ⟨ihb, iha, by rw [ihe, hstep_e], ?_, ?_⟩
    · intro w hw
      apply ihw
      rw [hstep_w]
      exact List.mem_append_left _ hw
    · intro m' hm'
      rcases List.mem_cons.mp hm' with rfl | hm'
      · apply ihw
        rw [hstep_w]
        exact List.mem_append_right _ (List.mem_singleton.mpr rfl)
      · exact ihm m' hm'

end PipelineLemmas2

section PipelineLemmas3

open DataPipeline

theorem processPlant_ne (today : ℤ) (ms : List String) (v f : Bool)
    (st : PipelineResult) (p q : String) (h : q ≠ p) :
    getEntry (processPlant today ms v f st p).readings_by_plant q =
        getEntry st.readings_by_plant q ∧
    getEntry (processPlant today ms v f st p).baselines_by_plant q =
        getEntry st.baselines_by_plant q ∧
    getEntry (processPlant today ms v f st p).anomalies_by_plant q =
        getEntry st.anomalies_by_plant q ∧
    (∀ w ∈ st.warnings, w ∈ (processPlant today ms v f st p).warnings) := by
  unfold processPlant
  dsimp only
  split
  case isTrue =>
    exact ⟨rfl, rfl, rfl, fun w hw => List.mem_append_left _ hw⟩
  case isFalse =>
    generalize (if v = true then validateReadings today p
      ((getEntry st.readings_by_plant p).getD [])
      else ((getEntry st.readings_by_plant p).getD [], [])) = vres
    split
    case isTrue =>
      exact ⟨rfl, rfl, rfl, fun w hw =>
        List.mem_append_left _ (List.mem_append_left _ hw)⟩
    case isFalse =>
      refine ⟨?_, ?_, ?_, ?_⟩
      · rw [metricsFold_readings]
        exact getEntry_setEntry_ne _ _ _ _ h
      · rw [metricsFold_baselines_ne _ _ q h]
        exact getEntry_setEntry_ne _ _ _ _ h
      · rw [metricsFold_anomalies_ne _ _ q h]
        exact getEntry_setEntry_ne _ _ _ _ h
      · intro w hw
        obtain ⟨t, ht⟩ := metricsFold_warnings_append _ _ ms _
        rw [ht]
        exact List.mem_append_left _ (List.mem_append_left _ hw)

theorem processPlant_readings_self (today : ℤ) (ms : List String)
    (v f : Bool) (st : PipelineResult) (p : String)
    (rs : List DailyReading)
    (hrs : getEntry st.readings_by_plant p = some rs)
    (hne : rs.isEmpty = false)
    (hval : ¬ (v = true ∧ (validateReadings today p rs).1.isEmpty = true)) :
    getEntry (processPlant today ms v f st p).readings_by_plant p =
      some (analysisReadings today v f p rs).1 := by
  unfold processPlant
  rw [hrs]
  dsimp only [Option.getD_some]
  rw [if_neg (by simp [hne])]
  generalize hvr : (if v = true then validateReadings today p rs
    else (rs, [])) = vres
  rw [if_neg (by
    rintro ⟨hvv, hemp⟩
    rw [hvv] at hvr
    simp only [if_pos] at hvr
    subst hvr
    exact hval ⟨hvv, hemp⟩)]
  rw [metricsFold_readings]
  exact getEntry_setEntry_self _ _ _

theorem processPlant_insufficient (today : ℤ) (ms : List String)
    (v f : Bool) (st : PipelineResult) (p : String)
    (rs : List DailyReading)
    (hrs : getEntry st.readings_by_plant p = some rs)
    (hne : rs.isEmpty = false)
    (hval : ¬ (v = true ∧ (validateReadings today p rs).1.isEmpty = true))
    (h13 : (analysisReadings today v f p rs).1.length < 13) :
    getEntry (processPlant today ms v f st p).baselines_by_plant p =
        some [] ∧
    getEntry (processPlant today ms v f st p).anomalies_by_plant p =
        some [] ∧
    (processPlant today ms v f st p).errors = st.errors ∧
    (∀ w ∈ st.warnings, w ∈ (processPlant today ms v f st p).warnings) ∧
    (∀ m ∈ ms, insuffMsg p m (analysisReadings today v f p rs).1.length ∈
      (processPlant today ms v f st p).warnings) := by
  unfold processPlant
  rw [hrs]
  dsimp only [Option.getD_some]
  rw [if_neg (by simp [hne])]
  generalize hvr : (if v = true then validateReadings today p rs
    else (rs, [])) = vres
  rw [if_neg (by
    rintro ⟨hvv, hemp⟩
    rw [hvv] at hvr
    simp only [if_pos] at hvr
    subst hvr
    exact hval ⟨hvv, hemp⟩)]
  obtain ⟨ihb, iha, ihe, ihw, ihm⟩ := metricsFold_insufficient p
    (analysisReadings today v f p rs).1 h13 ms
    ({ st with
        warnings := st.warnings ++ vres.2
        readings_by_plant := setEntry st.readings_by_plant p
          (analysisReadings today v f p rs).1
        baselines_by_plant := setEntry st.baselines_by_plant p []
        anomalies_by_plant := setEntry st.anomalies_by_plant p [] })
    (getEntry_setEntry_self _ _ _) (getEntry_setEntry_self _ _ _)
  refine ⟨ihb, iha, by rw [ihe], ?_, ihm⟩
  intro w hw
  exact ihw w (List.mem_append_left _ hw)

theorem plantsFold_ne (today : ℤ) (ms : List String) (v f : Bool)
    (q : String) :
    ∀ (l : List String), q ∉ l → ∀ st : PipelineResult,
      getEntry ((l.foldl (processPlant today ms v f) st).readings_by_plant)
          q = getEntry st.readings_by_plant q ∧
      getEntry ((l.foldl (processPlant today ms v f) st).baselines_by_plant)
          q = getEntry st.baselines_by_plant q ∧
      getEntry ((l.foldl (processPlant today ms v f) st).anomalies_by_plant)
          q = getEntry st.anomalies_by_plant q ∧
      (∀ w ∈ st.warnings,
        w ∈ (l.foldl (processPlant today ms v f) st).warnings) := by
  intro l
  induction l with
  | nil => exact fun _ st => ⟨rfl, rfl, rfl, fun w hw => hw⟩
  | cons p t ih =>
    intro hq st
    have hqp : q ≠ p := fun hh => hq (hh ▸ List.mem_cons_self p t)
    have hqt : q ∉ t := fun hh => hq (List.mem_cons_of_mem p hh)
    rw [List.foldl_cons]
    obtain ⟨i1, i2, i3, i4⟩ := ih hqt (processPlant today ms v f st p)
    obtain ⟨p1, p2, p3, p4⟩ := processPlant_ne today ms v f st p q hqp
    exact ⟨by rw [i1, p1], by rw [i2, p2], by rw [i3, p3],
      fun w hw => i4 w (p4 w hw)⟩

theorem plantsFold_processed (today : ℤ) (ms : List String) (v f : Bool) :
    ∀ (l : List String) (st : PipelineResult) (q : String)
      (rsq : List DailyReading),
      l.Nodup → q ∈ l →
      getEntry st.readings_by_plant q = some rsq →
      rsq.isEmpty = false →
      ¬ (v = true ∧ (validateReadings today q rsq).1.isEmpty = true) →
      getEntry ((l.foldl (processPlant today ms v f) st).readings_by_plant)
        q = some (analysisReadings today v f q rsq).1 := by
  intro l
  induction l with
  | nil => exact fun st q rsq _ hq => absurd hq (List.not_mem_nil q)
  | cons p t ih =>
    intro st q rsq hnd hq hrs hne hval
    rw [List.foldl_cons]
    rcases List.mem_cons.mp hq with rfl | hq'
    · have hqt : q ∉ t := (List.nodup_cons.mp hnd).1
      rw [(plantsFold_ne today ms v f q t hqt _).1]
      exact processPlant_readings_self today ms v f st q rsq hrs hne hval
    · have hqp : q ≠ p := fun hh => (List.nodup_cons.mp hnd).1 (hh ▸ hq')
      apply ih _ q rsq (List.nodup_cons.mp hnd).2 hq' _ hne hval
      rw [(processPlant_ne today ms v f st p q hqp).1]
      exact hrs

theorem plantsFold_insufficient (today : ℤ) (ms : List String)
    (v f : Bool) :
    ∀ (l : List String) (st : PipelineResult) (p : String)
      (rs : List DailyReading),
      l.Nodup → p ∈ l →
      getEntry st.readings_by_plant p = some rs →
      rs.isEmpty = false →
      ¬ (v = true ∧ (validateReadings today p rs).1.isEmpty = true) →
      (analysisReadings today v f p rs).1.length < 13 →
      (∀ m ∈ ms, insuffMsg p m (analysisReadings today v f p rs).1.length ∈
        (l.foldl (processPlant today ms v f) st).warnings) ∧
      getEntry ((l.foldl (processPlant today ms v f) st).baselines_by_plant)
          p = some [] ∧
      getEntry ((l.foldl (processPlant today ms v f) st).anomalies_by_plant)
          p = some [] := by
  intro l
  induction l with
  | nil => exact fun st p rs _ hp => absurd hp (List.not_mem_nil p)
  | cons p' t ih =>
    intro st p rs hnd hp hrs hne hval h13
    rw [List.foldl_cons]
    rcases List.mem_cons.mp hp with rfl | hp'
    · have hpt : p ∉ t := (List.nodup_cons.mp hnd).1
      obtain ⟨sb, sa, se, sw, sm⟩ := processPlant_insufficient today ms v f
        st p rs hrs hne hval h13
      obtain ⟨f1, f2, f3, f4⟩ := plantsFold_ne today ms v f p t hpt
        (processPlant today ms v f st p)
      exact ⟨fun m hm => f4 _ (sm m hm), by rw [f2, sb], by rw [f3, sa]⟩
    · have hpp : p ≠ p' := fun hh => (List.nodup_cons.mp hnd).1 (hh ▸ hp')
      apply ih _ p rs (List.nodup_cons.mp hnd).2 hp' _ hne hval h13
      rw [(processPlant_ne today ms v f st p' p hpp).1]
      exact hrs

end PipelineLemmas3

section PipelineSpec

open DataPipeline

/-- Counterexample to **C7** as stated: with `fill_gaps=True`, a plant with
only 2 readings after validation and deduplication (13 days apart, so
interpolation fills them to 14) is **not** skipped and no warning is
recorded — the `< 13` check runs after gap filling, not after
deduplication. -/
theorem pipeline_insufficient_counterexample :
    (DataValidator.removeDuplicates [gapReadingA, gapReadingB]).length
      < 13 ∧
    (DataPipeline.executeModel ["P1"] [("P1", [gapReadingA, gapReadingB])]
      ["power_output_kwh"] false true 25000).warnings = [] := by
  refine ⟨by decide, ?_⟩
  rfl

/-- **C7 amended** — during `execute`, a plant having fewer than 13
readings at the metric-analysis stage (after validation, deduplication,
and the optional gap filling) gets a warning entry per requested metric and
those metrics alone are skipped — its baseline map stays empty and no
anomalies are produced — while every other (nonempty, not
fully-invalid) plant still has its readings processed and recorded, and the
run is not aborted: `success` is determined solely by recorded errors. -/
theorem pipeline_insufficient_spec (plants : List String)
    (rmap : List (String × List DailyReading)) (metrics : List String)
    (validate fillGaps : Bool) (today : ℤ) (plant : String)
    (rs : List DailyReading)
    (hnd : plants.Nodup) (hp : plant ∈ plants)
    (hplants : plants ≠ []) (hrmap : rmap ≠ [])
    (hrs : DataPipeline.getEntry rmap plant = some rs)
    (hne : rs.isEmpty = false)
    (hval : ¬ (validate = true ∧
      (DataPipeline.validateReadings today plant rs).1.isEmpty = true))
    (h13 : (DataPipeline.analysisReadings today validate fillGaps plant
      rs).1.length < 13) :
    (∀ m ∈ (if metrics.isEmpty then ["power_output_kwh"] else metrics),
      insuffMsg plant m (DataPipeline.analysisReadings today validate
        fillGaps plant rs).1.length ∈
        (DataPipeline.executeModel plants rmap metrics validate fillGaps
          today).warnings) ∧
    DataPipeline.getEntry (DataPipeline.executeModel plants rmap metrics
      validate fillGaps today).baselines_by_plant plant = some [] ∧
    DataPipeline.getEntry (DataPipeline.executeModel plants rmap metrics
      validate fillGaps today).anomalies_by_plant plant = some [] ∧
    (∀ q rsq, q ∈ plants → DataPipeline.getEntry rmap q = some rsq →
      rsq.isEmpty = false →
      ¬ (validate = true ∧ (DataPipeline.validateReadings today q
        rsq).1.isEmpty = true) →
      DataPipeline.getEntry (DataPipeline.executeModel plants rmap metrics
        validate fillGaps today).readings_by_plant q =
        some (DataPipeline.analysisReadings today validate fillGaps q
          rsq).1) ∧
    (DataPipeline.executeModel plants rmap metrics validate fillGaps
      today).success =
      (DataPipeline.executeModel plants rmap metrics validate fillGaps
        today).errors.isEmpty := by
  have hcond : ¬ (plants.isEmpty = true ∨ rmap.isEmpty = true) := by
    rintro (h | h)
    · exact hplants (by simpa using h)
    · exact hrmap (by simpa using h)
  unfold DataPipeline.executeModel
  rw [if_neg hcond]
  dsimp only
  obtain ⟨w1, b1, a1⟩ := plantsFold_insufficient today
    (if metrics.isEmpty then ["power_output_kwh"] else metrics) validate
    fillGaps plants
    ({ success := false, plants := plants, readings_by_plant := rmap
       baselines_by_plant := [], anomalies_by_plant := []
       errors := [], warnings := [] })
    plant rs hnd hp hrs hne hval h13
  refine ⟨w1, b1, a1, ?_, rfl⟩
  intro q rsq hq hrsq hneq hvalq
  exact plantsFold_processed today
    (if metrics.isEmpty then ["power_output_kwh"] else metrics) validate
    fillGaps plants _ q rsq hnd hq hrsq hneq hvalq

/-- Witness for `pipeline_insufficient_spec`: plant `P1` has 2 readings (no
gap filling), plant `P2` has 13; `P1` gets the insufficient warning and
empty baseline/anomaly entries while `P2` is processed. -/
theorem pipeline_insufficient_spec_witness :
    insuffMsg "P1" "power_output_kwh"
      (DataPipeline.analysisReadings 25000 false false "P1"
        [gapReadingA, gapReadingB]).1.length ∈
      (DataPipeline.executeModel ["P1", "P2"] rmapW ["power_output_kwh"]
        false false 25000).warnings ∧
    DataPipeline.getEntry (DataPipeline.executeModel ["P1", "P2"] rmapW
      ["power_output_kwh"] false false 25000).baselines_by_plant "P1" =
      some [] ∧
    DataPipeline.getEntry (DataPipeline.executeModel ["P1", "P2"] rmapW
      ["power_output_kwh"] false false 25000).anomalies_by_plant "P1" =
      some [] ∧
    DataPipeline.getEntry (DataPipeline.executeModel ["P1", "P2"] rmapW
      ["power_output_kwh"] false false 25000).readings_by_plant "P2" =
      some (DataPipeline.analysisReadings 25000 false false "P2"
        thirteenReadings).1 := by
  have h := pipeline_insufficient_spec ["P1", "P2"] rmapW
    ["power_output_kwh"] false false 25000 "P1"
    [gapReadingA, gapReadingB] (by decide) (by decide) (by decide)
    (by decide) rfl (by decide) (by decide) (by decide)
  exact ⟨h.1 "power_output_kwh" (by decide), h.2.1, h.2.2.1,
    h.2.2.2.1 "P2" thirteenReadings (by decide) rfl rfl
      (by decide)⟩

end PipelineSpec

section FillGapsLemmas

open DataValidator

theorem foldl_min_date (t : List DailyReading) :
    ∀ acc : ℤ,
      (t.foldl (fun m x => min m x.date) acc = acc ∨
        ∃ x ∈ t, t.foldl (fun m x => min m x.date) acc = x.date) ∧
      t.foldl (fun m x => min m x.date) acc ≤ acc ∧
      ∀ x ∈ t, t.foldl (fun m x => min m x.date) acc ≤ x.date := by
  induction t with
  | nil => intro acc; exact ⟨Or.inl rfl, le_refl _, by simp⟩
  | cons y t ih =>
    intro acc
    obtain ⟨h1, h2, h3⟩ := ih (min acc y.date)
    rw [List.foldl_cons]
    refine ⟨?_, le_trans h2 (min_le_left _ _), ?_⟩
    · rcases h1 with h | ⟨x, hx, hex⟩
      · rcases le_or_lt acc y.date with hle | hlt
        · exact Or.inl (by rw [h, min_eq_left hle])
        · exact Or.inr ⟨y, List.mem_cons_self _ _,
            by rw [h, min_eq_right (le_of_lt hlt)]⟩
      · exact Or.inr ⟨x, List.mem_cons_of_mem _ hx, hex⟩
    · intro x hx
      rcases List.mem_cons.mp hx with rfl | hx'
      · exact le_trans h2 (min_le_right _ _)
      · exact h3 x hx'

theorem minDate_eq (l : List DailyReading) (r : DailyReading) (hr : r ∈ l)
    (hmin : ∀ x ∈ l, r.date ≤ x.date) : minDate l = r.date := by
  match l with
  | [] => exact absurd hr (List.not_mem_nil r)
  | y :: t =>
    show t.foldl (fun m x => min m x.date) y.date = r.date
    obtain ⟨h1, h2, h3⟩ := foldl_min_date t y.date
    apply le_antisymm
    · rcases List.mem_cons.mp hr with rfl | hr'
      · exact h2
      · exact h3 r hr'
    · rcases h1 with h | ⟨x, hx, hex⟩
      · rw [h]; exact hmin y (List.mem_cons_self _ _)
      · rw [hex]; exact hmin x (List.mem_cons_of_mem _ hx)

theorem foldl_max_date (t : List DailyReading) :
    ∀ acc : ℤ,
      (t.foldl (fun m x => max m x.date) acc = acc ∨
        ∃ x ∈ t, t.foldl (fun m x => max m x.date) acc = x.date) ∧
      acc ≤ t.foldl (fun m x => max m x.date) acc ∧
      ∀ x ∈ t, x.date ≤ t.foldl (fun m x => max m x.date) acc := by
  induction t with
  | nil => intro acc; exact ⟨Or.inl rfl, le_refl _, by simp⟩
  | cons y t ih =>
    intro acc
    obtain ⟨h1, h2, h3⟩ := ih (max acc y.date)
    rw [List.foldl_cons]
    refine ⟨?_, le_trans (le_max_left _ _) h2, ?_⟩
    · rcases h1 with h | ⟨x, hx, hex⟩
      · rcases le_or_lt y.date acc with hle | hlt
        · exact Or.inl (by rw [h, max_eq_left hle])
        · exact Or.inr ⟨y, List.mem_cons_self _ _,
            by rw [h, max_eq_right (le_of_lt hlt)]⟩
      · exact Or.inr ⟨x, List.mem_cons_of_mem _ hx, hex⟩
    · intro x hx
      rcases List.mem_cons.mp hx with rfl | hx'
      · exact le_trans (le_max_right _ _) h2
      · exact h3 x hx'

theorem maxDate_eq (l : List DailyReading) (r : DailyReading) (hr : r ∈ l)
    (hmax : ∀ x ∈ l, x.date ≤ r.date) : maxDate l = r.date := by
  match l with
  | [] => exact absurd hr (List.not_mem_nil r)
  | y :: t =>
    show t.foldl (fun m x => max m x.date) y.date = r.date
    obtain ⟨h1, h2, h3⟩ := foldl_max_date t y.date
    apply le_antisymm
    · rcases h1 with h | ⟨x, hx, hex⟩
      · rw [h]; exact hmax y (List.mem_cons_self _ _)
      · rw [hex]; exact hmax x (List.mem_cons_of_mem _ hx)
    · rcases List.mem_cons.mp hr with rfl | hr'
      · exact h2
      · exact h3 r hr'

theorem sorted_le_getLast (l : List DailyReading) (h : l ≠ [])
    (hs : l.Sorted (fun a b => a.date ≤ b.date)) :
    ∀ x ∈ l, x.date ≤ (l.getLast h).date := by
  intro x hx
  obtain ⟨i, hi, hxi⟩ := List.getElem_of_mem hx
  rw [List.getLast_eq_getElem]
  have hle : i ≤ l.length - 1 := by omega
  rcases lt_or_eq_of_le hle with hlt | heq
  · have hp := List.pairwise_iff_getElem.mp hs i (l.length - 1) hi
      (by omega) hlt
    rw [← hxi]
    exact hp
  · rw [← hxi]
    simp [heq]

theorem find?_sorted_min (d : ℤ) :
    ∀ (l : List DailyReading), l.Sorted (fun a b => a.date ≤ b.date) →
    ∀ a : DailyReading, l.find? (fun r => decide (d < r.date)) = some a →
    ∀ x ∈ l, d < x.date → a.date ≤ x.date := by
  intro l
  induction l with
  | nil => intro _ a ha; simp at ha
  | cons y t ih =>
    intro hs a ha x hx hdx
    by_cases hy : d < y.date
    · rw [List.find?_cons_of_pos _ (by simpa using hy)] at ha
      have hya : y = a := Option.some.inj ha
      subst hya
      rcases List.mem_cons.mp hx with rfl | hx'
      · exact le_refl _
      · exact (List.sorted_cons.mp hs).1 x hx'
    · rw [List.find?_cons_of_neg _ (by simpa using hy)] at ha
      rcases List.mem_cons.mp hx with rfl | hx'
      · exact absurd hdx hy
      · exact ih (List.sorted_cons.mp hs).2 a ha x hx' hdx

theorem lookupDate_mem (s : List DailyReading) (d : ℤ) (r : DailyReading)
    (h : lookupDate s d = some r) : r ∈ s ∧ r.date = d := by
  unfold lookupDate at h
  refine ⟨List.mem_reverse.mp (List.mem_of_find?_eq_some h), ?_⟩
  have := List.find?_some h
  simpa using this

theorem lookupDate_isSome (s : List DailyReading) (d : ℤ)
    (hx : ∃ x ∈ s, x.date = d) :
    ∃ r, lookupDate s d = some r := by
  unfold lookupDate
  obtain ⟨x, hxs, hxd⟩ := hx
  have : (s.reverse.find? (fun r => r.date == d)).isSome := by
    rw [List.find?_isSome]
    exact ⟨x, List.mem_reverse.mpr hxs, by simpa using hxd⟩
  rcases hr : s.reverse.find? (fun r => r.date == d) with _ | r
  · rw [hr] at this; simp at this
  · exact ⟨r, hr⟩

theorem lookupDate_none (s : List DailyReading) (d : ℤ)
    (hx : ∀ x ∈ s, x.date ≠ d) : lookupDate s d = none := by
  unfold lookupDate
  apply List.find?_eq_none.mpr
  intro x hxs
  simpa using hx x (List.mem_reverse.mp hxs)

end FillGapsLemmas

section FillGapsLemmas2

open DataValidator

theorem fillStep_interpolate (s : List DailyReading) (cur : ℤ)
    (acc : List DailyReading) :
    fillStep s "interpolate" cur acc =
      match stepInterp s cur with
      | some r => r :: acc
      | none => acc := by
  unfold fillStep stepInterp
  rcases h : lookupDate s cur with _ | r
  · dsimp only
    rw [if_pos rfl]
  · rfl

theorem fillWalk_interpolate_eq (s : List DailyReading) :
    ∀ (n : ℕ) (cur : ℤ) (acc : List DailyReading),
      fillWalk s "interpolate" n cur acc =
        acc.reverse ++ (List.range n).filterMap
          (fun (k : ℕ) => stepInterp s (cur + (k : ℤ))) := by
  intro n
  induction n with
  | zero => intro cur acc; simp [fillWalk]
  | succ n ih =>
    intro cur acc
    have hstep : fillWalk s "interpolate" (n + 1) cur acc =
        fillWalk s "interpolate" n (cur + 1)
          (fillStep s "interpolate" cur acc) := rfl
    rw [hstep, ih, fillStep_interpolate]
    have hfun : ((fun (k : ℕ) => stepInterp s (cur + (k : ℤ))) ∘ Nat.succ)
        = (fun (k : ℕ) => stepInterp s (cur + 1 + (k : ℤ))) := by
      funext k
      simp only [Function.comp_apply]
      congr 1
      push_cast
      ring
    rcases h : stepInterp s cur with _ | r
    · rw [List.range_succ_eq_map, List.filterMap_cons]
      simp only [Nat.cast_zero, add_zero, h]
      rw [List.filterMap_map, hfun]
    · rw [List.range_succ_eq_map, List.filterMap_cons]
      simp only [Nat.cast_zero, add_zero, h]
      rw [List.filterMap_map, hfun, List.reverse_cons, List.append_assoc,
        List.singleton_append]

end FillGapsLemmas2

section FillGapsLemmas3

open DataValidator

theorem stepInterp_spec (readings : List DailyReading) (r0 : DailyReading)
    (rest : List DailyReading)
    (hs : (r0 :: rest).Sorted (fun a b => a.date ≤ b.date))
    (hperm : List.Perm (r0 :: rest) readings)
    (d : ℤ) (hd1 : r0.date ≤ d)
    (hd2 : d ≤ ((r0 :: rest).getLast (by simp)).date) :
    ∃ r, stepInterp (r0 :: rest) d = some r ∧ r.date = d ∧
      filledReadingProp readings r := by
  by_cases hmem : ∃ x ∈ (r0 :: rest), x.date = d
  · obtain ⟨r, hr⟩ := lookupDate_isSome _ d hmem
    obtain ⟨hrs, hrd⟩ := lookupDate_mem _ d r hr
    refine ⟨r, ?_, hrd, Or.inl (hperm.mem_iff.mp hrs)⟩
    unfold stepInterp
    rw [hr]
  · push_neg at hmem
    have hlook : lookupDate (r0 :: rest) d = none := lookupDate_none _ d hmem
    have hd1' : r0.date < d :=
      lt_of_le_of_ne hd1 (fun hh => hmem r0 (List.mem_cons_self _ _) hh)
    have hlastmem : (r0 :: rest).getLast (by simp) ∈ (r0 :: rest) :=
      List.getLast_mem _
    have hd2' : d < ((r0 :: rest).getLast (by simp)).date :=
      lt_of_le_of_ne hd2 (fun hh => hmem _ hlastmem hh.symm)
    have hfilter_ne :
        (r0 :: rest).filter (fun r => decide (r.date < d)) ≠ [] := by
      intro hemp
      have hin : r0 ∈ (r0 :: rest).filter (fun r => decide (r.date < d)) :=
        List.mem_filter.mpr ⟨List.mem_cons_self _ _, by simpa using hd1'⟩
      rw [hemp] at hin
      exact List.not_mem_nil _ hin
    set b := ((r0 :: rest).filter
      (fun r => decide (r.date < d))).getLast hfilter_ne with hbdef
    have hbmem : b ∈ (r0 :: rest).filter (fun r => decide (r.date < d)) :=
      List.getLast_mem _
    have hbs : b ∈ r0 :: rest := (List.mem_filter.mp hbmem).1
    have hbd : b.date < d := by
      simpa using (List.mem_filter.mp hbmem).2
    have hsfil : ((r0 :: rest).filter
        (fun r => decide (r.date < d))).Sorted
        (fun a b => a.date ≤ b.date) := hs.filter _
    have hnear_b : ∀ x ∈ (r0 :: rest), x.date < d → x.date ≤ b.date := by
      intro x hx hxd
      exact sorted_le_getLast _ hfilter_ne hsfil x
        (List.mem_filter.mpr ⟨hx, by simpa using hxd⟩)
    have hfind : ∃ a, (r0 :: rest).find?
        (fun r => decide (d < r.date)) = some a := by
      have hsome : ((r0 :: rest).find?
          (fun r => decide (d < r.date))).isSome := by
        rw [List.find?_isSome]
        exact ⟨_, hlastmem, by simpa using hd2'⟩
      rcases hr : (r0 :: rest).find? (fun r => decide (d < r.date)) with
        _ | a
      · rw [hr] at hsome; simp at hsome
      · exact ⟨a, hr⟩
    obtain ⟨a, ha⟩ := hfind
    have haP : d < a.date := by simpa using List.find?_some ha
    have hamem : a ∈ r0 :: rest := List.mem_of_find?_eq_some ha
    have hnear_a : ∀ x ∈ (r0 :: rest), d < x.date → a.date ≤ x.date :=
      find?_sorted_min d _ hs a ha
    have hdmem : d ∉ readings.map (·.date) := by
      rw [List.mem_map]
      rintro ⟨x, hx, hxd⟩
      exact hmem x (hperm.mem_iff.mpr hx) hxd
    have hstep : stepInterp (r0 :: rest) d = some
        { plant_id := b.plant_id
          date := d
          power_output_kwh := b.power_output_kwh +
            ((d - b.date : ℤ) : ℚ) / ((a.date - b.date : ℤ) : ℚ) *
            (a.power_output_kwh - b.power_output_kwh)
          efficiency_pct := b.efficiency_pct +
            ((d - b.date : ℤ) : ℚ) / ((a.date - b.date : ℤ) : ℚ) *
            (a.efficiency_pct - b.efficiency_pct)
          temperature_c := b.temperature_c +
            ((d - b.date : ℤ) : ℚ) / ((a.date - b.date : ℤ) : ℚ) *
            (a.temperature_c - b.temperature_c)
          irradiance_w_m2 := b.irradiance_w_m2 +
            ((d - b.date : ℤ) : ℚ) / ((a.date - b.date : ℤ) : ℚ) *
            (a.irradiance_w_m2 - b.irradiance_w_m2)
          inverter_status := b.inverter_status
          grid_frequency_hz := b.grid_frequency_hz } := by
      unfold stepInterp
      rw [hlook]
      unfold interpolateReading
      rw [List.getLast?_eq_getLast_of_ne_nil hfilter_ne, ha, ← hbdef]
      dsimp only
      rw [if_pos (by omega)]
    exact ⟨_, hstep, rfl, Or.inr ⟨hdmem, b, a, hperm.mem_iff.mp hbs,
      hperm.mem_iff.mp hamem, hbd, haP,
      fun x hx => hnear_b x (hperm.mem_iff.mpr hx),
      fun x hx => hnear_a x (hperm.mem_iff.mpr hx),
      rfl, rfl, rfl, rfl, rfl, rfl⟩⟩

end FillGapsLemmas3

section FillGapsLemmas4

theorem filterMap_step_spec (P : DailyReading → Prop)
    (f : ℕ → Option DailyReading) (g : ℕ → ℤ) :
    ∀ ks : List ℕ,
      (∀ k ∈ ks, ∃ r, f k = some r ∧ r.date = g k ∧ P r) →
      ((ks.filterMap f).map (·.date) = ks.map g) ∧
      ∀ r ∈ ks.filterMap f, P r := by
  intro ks
  induction ks with
  | nil => exact fun _ => ⟨rfl, by simp⟩
  | cons k t ih =>
    intro h
    obtain ⟨r, hr, hrd, hP⟩ := h k (List.mem_cons_self _ _)
    obtain ⟨ih1, ih2⟩ := ih (fun k' hk' => h k' (List.mem_cons_of_mem _ hk'))
    simp only [List.filterMap_cons, hr, List.map_cons]
    refine ⟨?_, ?_⟩
    · rw [ih1, hrd]
    · intro x hx
      rcases List.mem_cons.mp hx with rfl | hx'
      · exact hP
      · exact ih2 x hx'

/-- **C1** (amended). With at least two input readings,
`fill_date_gaps(method="interpolate")` produces exactly one reading per
calendar day from the earliest to the latest input date, in order; every
output reading is an original one, or an interpolated one for a missing
day whose four power/efficiency/temperature/irradiance fields are
linearly interpolated between the nearest bounding readings — but whose
`grid_frequency_hz` is, like the categorical `inverter_status`, copied
from the earlier bounding reading rather than interpolated. -/
theorem fill_date_gaps_spec (readings : List DailyReading)
    (h2 : 2 ≤ readings.length) :
    ((DataValidator.fillDateGaps readings "interpolate").map (·.date) =
      dateRange (minDate readings) (maxDate readings)) ∧
    ∀ r ∈ DataValidator.fillDateGaps readings "interpolate",
      filledReadingProp readings r := by
  have hperm := sortBy_perm (fun r : DailyReading => r.date) readings
  have hsort := sortBy_sorted (fun r : DailyReading => r.date) readings
  have hlen := sortBy_length (fun r : DailyReading => r.date) readings
  rcases hseq : sortBy (fun r : DailyReading => r.date) readings with
    _ | ⟨r0, rest⟩
  · rw [hseq] at hlen
    simp at hlen
    omega
  · rw [hseq] at hperm hsort
    have hnot2 : ¬ (readings.length < 2) := by omega
    have hne : (r0 :: rest) ≠ ([] : List DailyReading) := by simp
    have hr0mem : r0 ∈ readings := hperm.mem_iff.mp (List.mem_cons_self _ _)
    have hlastmem : (r0 :: rest).getLast hne ∈ readings :=
      hperm.mem_iff.mp (List.getLast_mem hne)
    have hmin : ∀ x ∈ readings, r0.date ≤ x.date := by
      intro x hx
      rcases List.mem_cons.mp (hperm.mem_iff.mpr hx) with rfl | hx'
      · exact le_refl _
      · exact (List.sorted_cons.mp hsort).1 x hx'
    have hmax : ∀ x ∈ readings, x.date ≤ ((r0 :: rest).getLast hne).date :=
      fun x hx => sorted_le_getLast _ hne hsort x (hperm.mem_iff.mpr hx)
    have hminEq : minDate readings = r0.date :=
      minDate_eq readings r0 hr0mem hmin
    have hmaxEq : maxDate readings = ((r0 :: rest).getLast hne).date :=
      maxDate_eq readings _ hlastmem hmax
    have hse : r0.date ≤ ((r0 :: rest).getLast hne).date := hmax r0 hr0mem
    have hprog : DataValidator.fillDateGaps readings "interpolate" =
        (List.range
          ((((r0 :: rest).getLast hne).date - r0.date).toNat + 1)).filterMap
          (fun (k : ℕ) =>
            DataValidator.stepInterp (r0 :: rest) (r0.date + (k : ℤ))) := by
      unfold DataValidator.fillDateGaps
      rw [if_neg hnot2, hseq]
      dsimp only
      rw [fillWalk_interpolate_eq]
      simp only [List.reverse_nil, List.nil_append]
    rw [hprog, hminEq, hmaxEq]
    have hdr : dateRange r0.date (((r0 :: rest).getLast hne).date) =
        (List.range
          ((((r0 :: rest).getLast hne).date - r0.date).toNat + 1)).map
          (fun (k : ℕ) => r0.date + (k : ℤ)) := by
      simp only [dateRange]
    rw [hdr]
    refine filterMap_step_spec (filledReadingProp readings)
      (fun (k : ℕ) =>
        DataValidator.stepInterp (r0 :: rest) (r0.date + (k : ℤ)))
      (fun (k : ℕ) => r0.date + (k : ℤ)) _ ?_
    intro k hk
    rw [List.mem_range] at hk
    exact stepInterp_spec readings r0 rest hsort hperm (r0.date + (k : ℤ))
      (by omega) (by omega)

/-- Concrete evaluation of the gap filler on the two-reading fixture:
the middle day is the interpolated record `gfInterp`. -/
theorem fillDateGaps_gf_eval :
    DataValidator.fillDateGaps [gfReadingA, gfReadingB] "interpolate" =
      [gfReadingA, gfInterp, gfReadingB] := rfl

/-- **C1 counterexample**: with input readings at day 0 (49.5 Hz) and day 2
(50.5 Hz), the reading filled in for day 1 keeps
`grid_frequency_hz = 49.5` — copied from the earlier bounding reading —
whereas the claimed linear interpolation of that numeric field would give
50. -/
theorem fill_gaps_counterexample :
    ∃ r ∈ DataValidator.fillDateGaps [gfReadingA, gfReadingB] "interpolate",
      r.date = 1 ∧
      r.grid_frequency_hz = gfReadingA.grid_frequency_hz ∧
      r.grid_frequency_hz ≠ gfReadingA.grid_frequency_hz +
        ((r.date - gfReadingA.date : ℤ) : ℚ) /
          ((gfReadingB.date - gfReadingA.date : ℤ) : ℚ) *
        (gfReadingB.grid_frequency_hz - gfReadingA.grid_frequency_hz) := by
  refine ⟨gfInterp, ?_, rfl, rfl, ?_⟩
  · rw [fillDateGaps_gf_eval]
    exact List.mem_cons_of_mem _ (List.mem_cons_self _ _)
  · show (99 / 2 : ℚ) ≠ 99 / 2 +
      ((1 - 0 : ℤ) : ℚ) / ((2 - 0 : ℤ) : ℚ) * (101 / 2 - 99 / 2)
    norm_num

theorem fill_date_gaps_spec_witness :
    2 ≤ ([gfReadingA, gfReadingB] : List DailyReading).length ∧
    (((DataValidator.fillDateGaps [gfReadingA, gfReadingB]
        "interpolate").map (·.date) =
      dateRange (minDate [gfReadingA, gfReadingB])
        (maxDate [gfReadingA, gfReadingB])) ∧
     ∀ r ∈ DataValidator.fillDateGaps [gfReadingA, gfReadingB]
        "interpolate", filledReadingProp [gfReadingA, gfReadingB] r) :=
  ⟨by decide, fill_date_gaps_spec [gfReadingA, gfReadingB] (by decide)⟩

end FillGapsLemmas4
